import Mathlib

/-!
Verification of the type-transformation and binding-emission pipeline of a
cross-language FFI binding generator (Rust → C# / Java).

The development shallowly embeds:
  * the intermediate type model and its transformer (`src/csharp/intermediate.rs`),
  * alias resolution and native-type propagation (`src/csharp/mod.rs`),
  * the shared argument-pattern predicates (`src/common.rs`),
  * the Java emitter's function/struct transformation (`src/java/mod.rs`,
    `src/java/jni.rs`).

Types and functions keep the source names.  A few items live in a module that
is not part of the sources at hand (the C# emit module); those are modelled
from the spec and say so in their doc comment.
-/

/- ## Intermediate type model (src/csharp/intermediate.rs)

`Type` from intermediate.rs.  `Function.inputs` is `Vec<(String, Type)>` in
the source; it is embedded as the bespoke list `CSInputs` (isomorphic to
`List (String × CSType)`) so that all recursion over the family is
structural.  The Rust `Type` is called `CSType` here to avoid clashing with
Lean's `Type`. -/

mutual

inductive CSType where
  | Unit
  | Bool
  | CChar
  | F32
  | F64
  | I8
  | I16
  | I32
  | I64
  | ISize
  | U8
  | U16
  | U32
  | U64
  | USize
  | String
  | Pointer (ty : CSType)
  | Array (ty : CSType) (size : Nat)
  | Function (f : CSFunction)
  | User (name : String)
  deriving DecidableEq

inductive CSFunction where
  | mk (inputs : CSInputs) (output : CSType)
  deriving DecidableEq

inductive CSInputs where
  | nil
  | cons (name : String) (ty : CSType) (rest : CSInputs)
  deriving DecidableEq

end

def CSFunction.inputs : CSFunction → CSInputs
  | .mk ins _ => ins

def CSFunction.output : CSFunction → CSType
  | .mk _ out => out

def CSInputs.length : CSInputs → Nat
  | .nil => 0
  | .cons _ _ rest => 1 + rest.length

def CSInputs.head? : CSInputs → Option (String × CSType)
  | .nil => none
  | .cons n t _ => some (n, t)

/-- `is_user_data` from intermediate.rs: the pair is `user_data: *mut c_void`
(at the intermediate level: a pointer to `Unit` named `user_data`). -/
def is_user_data (name : String) (ty : CSType) : Bool :=
  match ty with
  | .Pointer .Unit => name == "user_data"
  | _ => false

/-- `extract_callback` from intermediate.rs: a `Function`-typed value whose
first parameter is the `user_data` context pair. -/
def extract_callback (ty : CSType) : Option CSFunction :=
  match ty with
  | .Function f =>
    match f.inputs.head? with
    | some (n, t) => if is_user_data n t then some f else none
    | none => none
  | _ => none

/-- `extract_callbacks` from intermediate.rs: filter-map of `extract_callback`
over a parameter list. -/
def extract_callbacks : CSInputs → List (String × CSFunction)
  | .nil => []
  | .cons n t rest =>
    match extract_callback t with
    | some f => (n, f) :: extract_callbacks rest
    | none => extract_callbacks rest

/-- `callback_arity` from intermediate.rs: `fun.inputs.len() - 1`
(the `user_data` parameter is not counted); `usize` subtraction is embedded
as truncated `Nat` subtraction. -/
def callback_arity (f : CSFunction) : Nat :=
  f.inputs.length - 1

/- ## Collected snippets (data shapes from the C# emit module)

The C# emitter's `Snippet`, `Struct`, `Field` and `Const` types live in
`src/csharp/emit.rs`, which is not among the sources at hand; their shape is
modelled from the spec. -/

/-- Modelled from the spec: `Snippet<T>` — a named, documented declaration
item `{ name, docs, item }` (spec section 3; declared in the absent emit
module). -/
structure Snippet (T : Type) where
  docs : String
  name : String
  item : T
  deriving DecidableEq

/-- Modelled from the spec: a struct field (identifier plus intermediate
type); declared in the absent emit module. -/
structure CSField where
  name : String
  ty : CSType
  deriving DecidableEq

/-- Modelled from the spec: `StructDecl` — the field list of a collected
`#[repr(C)]` struct; declared in the absent emit module. -/
structure CSStruct where
  fields : List CSField
  deriving DecidableEq

/-- Modelled from the spec: `ConstDecl` — a collected constant; only its
intermediate type matters to alias resolution, the literal value is omitted.
Declared in the absent emit module. -/
structure CSConst where
  ty : CSType
  deriving DecidableEq

/- ## Native-type propagation (src/csharp/mod.rs, lines 51-67 and 206-229) -/

/-- `Context::is_native_name`: membership in the `native_types` set (the
`HashSet<String>` is embedded as a `List String` used only through
membership). -/
def is_native_name (native : List String) (name : String) : Bool :=
  native.contains name

/-- `Context::is_native_type`: unwrap pointer layers; a `User` name is native
when it is in the native set; everything else is not. -/
def is_native_type (native : List String) : CSType → Bool
  | .Pointer ty => is_native_type native ty
  | .User name => is_native_name native name
  | _ => false

/-- The per-struct body of one sweep of `LangCSharp::resolve_native_types`:
skip structs already marked native; otherwise mark the struct native (and
raise the `run` flag) when some field is a dynamically-sized array or has a
native type.  The field predicate `is_dynamic_array` is defined in the absent
emit module, so it is taken as a parameter `isDyn`. -/
def sweepStep (isDyn : CSType → Bool) (acc : List String × Bool)
    (snippet : Snippet CSStruct) : List String × Bool :=
  if is_native_name acc.1 snippet.name then acc
  else if snippet.item.fields.any (fun field => isDyn field.ty || is_native_type acc.1 field.ty)
  then (snippet.name :: acc.1, true)
  else acc

/-- One full sweep of the `for snippet in &self.structs` loop of
`resolve_native_types`, starting with the `run` flag lowered. -/
def sweep (isDyn : CSType → Bool) (structs : List (Snippet CSStruct))
    (native : List String) : List String × Bool :=
  structs.foldl (sweepStep isDyn) (native, false)

/-- The names marked during a sweep extend the set and are fresh struct
names; the `run` flag is raised exactly when a name was marked. -/
theorem sweep_foldl_spec (isDyn : CSType → Bool) (structs : List (Snippet CSStruct)) :
    ∀ (native : List String) (b : Bool),
      ∃ new : List String,
        structs.foldl (sweepStep isDyn) (native, b) = (new ++ native, b || !new.isEmpty) ∧
        ∀ x ∈ new, x ∈ structs.map Snippet.name ∧ x ∉ native := by
  induction structs with
  | nil =>
    intro native b
    exact ⟨[], by simp, by simp⟩
  | cons s rest ih =>
    intro native b
    rw [List.foldl_cons]
    by_cases hmem : is_native_name native s.name
    · rw [show sweepStep isDyn (native, b) s = (native, b) from by simp [sweepStep, hmem]]
      obtain ⟨new, heq, hnew⟩ := ih native b
      refine ⟨new, heq, fun x hx => ⟨?_, (hnew x hx).2⟩⟩
      have := (hnew x hx).1
      simp only [List.map_cons]
      exact List.mem_cons_of_mem _ this
    · by_cases hfield :
        s.item.fields.any (fun field => isDyn field.ty || is_native_type native field.ty)
      · rw [show sweepStep isDyn (native, b) s = (s.name :: native, true) from by
          simp [sweepStep, hmem, hfield]]
        obtain ⟨new, heq, hnew⟩ := ih (s.name :: native) true
        refine ⟨new ++ [s.name], ?_, ?_⟩
        · rw [heq]
          refine Prod.ext ?_ ?_
          · simp
          · have : (new ++ [s.name]).isEmpty = false := by
              simp [List.isEmpty_iff]
            simp [this]
        · intro x hx
          rcases List.mem_append.mp hx with hx | hx
          · obtain ⟨h1, h2⟩ := hnew x hx
            refine ⟨?_, fun hc => h2 (by simp [hc])⟩
            simp only [List.map_cons]
            exact List.mem_cons_of_mem _ h1
          · have hx' : x = s.name := by simpa using hx
            subst hx'
            refine ⟨by simp, ?_⟩
            intro hc
            exact hmem (by simpa [is_native_name] using hc)
      · rw [show sweepStep isDyn (native, b) s = (native, b) from by
          simp [sweepStep, hmem, hfield]]
        obtain ⟨new, heq, hnew⟩ := ih native b
        refine ⟨new, heq, fun x hx => ⟨?_, (hnew x hx).2⟩⟩
        have := (hnew x hx).1
        simp only [List.map_cons]
        exact List.mem_cons_of_mem _ this

/-- Specialization of `sweep_foldl_spec` to `sweep`. -/
theorem sweep_spec (isDyn : CSType → Bool) (structs : List (Snippet CSStruct))
    (native : List String) :
    ∃ new : List String,
      sweep isDyn structs native = (new ++ native, !new.isEmpty) ∧
      ∀ x ∈ new, x ∈ structs.map Snippet.name ∧ x ∉ native := by
  obtain ⟨new, heq, hnew⟩ := sweep_foldl_spec isDyn structs native false
  exact ⟨new, by simpa using heq, hnew⟩

/-- Monotonicity: a sweep only adds to the native set. -/
theorem sweep_mono (isDyn : CSType → Bool) (structs : List (Snippet CSStruct))
    (native : List String) (x : String) (hx : x ∈ native) :
    x ∈ (sweep isDyn structs native).1 := by
  obtain ⟨new, heq, -⟩ := sweep_spec isDyn structs native
  rw [heq]
  exact List.mem_append_right _ hx

/-- A sweep whose `run` flag stays lowered left the set unchanged. -/
theorem sweep_flag_false (isDyn : CSType → Bool) (structs : List (Snippet CSStruct))
    (native : List String) (h : (sweep isDyn structs native).2 = false) :
    (sweep isDyn structs native).1 = native := by
  obtain ⟨new, heq, -⟩ := sweep_spec isDyn structs native
  rw [heq] at h ⊢
  simp only [Bool.not_eq_false'] at h
  have : new = [] := List.isEmpty_iff.mp (by simpa using h)
  simp [this]

/-- Measure for the fixed-point loop: struct names not yet marked native. -/
def nativeMeasure (structs : List (Snippet CSStruct)) (native : List String) : Nat :=
  ((structs.map Snippet.name).toFinset \ native.toFinset).card

/-- A sweep that raises the `run` flag strictly shrinks the measure. -/
theorem sweep_measure_lt (isDyn : CSType → Bool) (structs : List (Snippet CSStruct))
    (native : List String) (h : (sweep isDyn structs native).2 = true) :
    nativeMeasure structs (sweep isDyn structs native).1 < nativeMeasure structs native := by
  obtain ⟨new, heq, hnew⟩ := sweep_spec isDyn structs native
  rw [heq] at h ⊢
  simp only [Bool.not_eq_eq_eq_not, Bool.not_false] at h
  have hne : new ≠ [] := fun hc => by simp [hc] at h
  obtain ⟨x, hxmem⟩ := List.exists_mem_of_ne_nil new hne
  obtain ⟨hxs, hxn⟩ := hnew x hxmem
  apply Finset.card_lt_card
  constructor
  · intro a ha
    simp only [Finset.mem_sdiff, List.mem_toFinset] at ha ⊢
    exact ⟨ha.1, fun hc => ha.2 (List.mem_append_right _ hc)⟩
  · intro hsub
    have hxin : x ∈ (structs.map Snippet.name).toFinset \ native.toFinset := by
      simp only [Finset.mem_sdiff, List.mem_toFinset]
      exact ⟨hxs, hxn⟩
    have := hsub hxin
    simp only [Finset.mem_sdiff, List.mem_toFinset] at this
    exact this.2 (List.mem_append_left _ hxmem)

/-- `LangCSharp::resolve_native_types` (the `while run` fixed-point loop):
sweep until a full sweep marks nothing.  Termination follows from the
monotone, bounded measure. -/
def resolve_native_types (isDyn : CSType → Bool) (structs : List (Snippet CSStruct))
    (native : List String) : List String :=
  let r := sweep isDyn structs native
  if h : r.2 = true then resolve_native_types isDyn structs r.1 else r.1
termination_by nativeMeasure structs native
decreasing_by exact sweep_measure_lt isDyn structs native h

/-- `n` unconditional sweeps (for stating the at-most-N-sweeps bound). -/
def sweepIter (isDyn : CSType → Bool) (structs : List (Snippet CSStruct)) :
    Nat → List String → List String
  | 0, native => native
  | n + 1, native => sweepIter isDyn structs n (sweep isDyn structs native).1

/-- A set the sweep leaves unchanged stays unchanged under iterated sweeps. -/
theorem sweepIter_of_fixed (isDyn : CSType → Bool) (structs : List (Snippet CSStruct))
    (native : List String) (hfix : sweep isDyn structs native = (native, false)) :
    ∀ n, sweepIter isDyn structs n native = native := by
  intro n
  induction n with
  | zero => rfl
  | succ n ih =>
    show sweepIter isDyn structs n (sweep isDyn structs native).1 = native
    rw [hfix]
    exact ih

/-- When at most `n` struct names are still unmarked, `n` sweeps reach a set
which a further sweep leaves unchanged (with the `run` flag lowered). -/
theorem sweepIter_reaches_fixed (isDyn : CSType → Bool)
    (structs : List (Snippet CSStruct)) :
    ∀ (n : Nat) (native : List String), nativeMeasure structs native ≤ n →
      sweep isDyn structs (sweepIter isDyn structs n native)
        = (sweepIter isDyn structs n native, false) := by
  intro n
  induction n with
  | zero =>
    intro native hm
    obtain ⟨new, heq, hnew⟩ := sweep_spec isDyn structs native
    have hnames : ∀ x, x ∈ structs.map Snippet.name → x ∈ native := by
      intro x hx
      by_contra hc
      have : x ∈ (structs.map Snippet.name).toFinset \ native.toFinset := by
        simp only [Finset.mem_sdiff, List.mem_toFinset]
        exact ⟨hx, hc⟩
      have hpos : 0 < nativeMeasure structs native :=
        Finset.card_pos.mpr ⟨x, this⟩
      omega
    have hempty : new = [] := by
      cases new with
      | nil => rfl
      | cons y ys =>
        obtain ⟨h1, h2⟩ := hnew y (by simp)
        exact absurd (hnames y h1) h2
    subst hempty
    simpa using heq
  | succ n ih =>
    intro native hm
    have hstep : sweepIter isDyn structs (n + 1) native
        = sweepIter isDyn structs n (sweep isDyn structs native).1 := rfl
    rw [hstep]
    by_cases hrun : (sweep isDyn structs native).2 = true
    · have hlt := sweep_measure_lt isDyn structs native hrun
      exact ih (sweep isDyn structs native).1 (by omega)
    · have hfst := sweep_flag_false isDyn structs native (by simpa using hrun)
      have hfix : sweep isDyn structs native = (native, false) :=
        Prod.ext hfst (by simpa using hrun)
      have h1 : sweepIter isDyn structs n (sweep isDyn structs native).1 = native := by
        rw [hfst]
        exact sweepIter_of_fixed isDyn structs native hfix n
      rw [h1]
      exact hfix

/-- The measure is bounded by the number of collected structs. -/
theorem nativeMeasure_le (structs : List (Snippet CSStruct)) (native : List String) :
    nativeMeasure structs native ≤ structs.length := by
  calc nativeMeasure structs native
      ≤ (structs.map Snippet.name).toFinset.card :=
        Finset.card_le_card (Finset.sdiff_subset)
    _ ≤ (structs.map Snippet.name).length := List.toFinset_card_le _
    _ = structs.length := List.length_map _ _

/-- Unfolding equation for the `while run` loop. -/
theorem resolve_native_types_eq (isDyn : CSType → Bool)
    (structs : List (Snippet CSStruct)) (native : List String) :
    resolve_native_types isDyn structs native =
      (if (sweep isDyn structs native).2 = true
       then resolve_native_types isDyn structs (sweep isDyn structs native).1
       else (sweep isDyn structs native).1) := by
  rw [resolve_native_types]
  exact dite_eq_ite ..

/-- The loop result is a fixed point of the sweep. -/
theorem resolve_native_types_fixed (isDyn : CSType → Bool)
    (structs : List (Snippet CSStruct)) (native : List String) :
    sweep isDyn structs (resolve_native_types isDyn structs native)
      = (resolve_native_types isDyn structs native, false) := by
  generalize hn : nativeMeasure structs native = n
  induction n using Nat.strong_induction_on generalizing native with
  | _ n ih =>
    rw [resolve_native_types_eq]
    by_cases hrun : (sweep isDyn structs native).2 = true
    · rw [if_pos hrun]
      have hlt := sweep_measure_lt isDyn structs native hrun
      exact ih _ (hn ▸ hlt) _ rfl
    · rw [if_neg hrun]
      have hfst := sweep_flag_false isDyn structs native (by simpa using hrun)
      rw [hfst]
      exact Prod.ext hfst (by simpa using hrun)

/-- Rerunning the loop on a sweep-fixed set changes nothing. -/
theorem resolve_native_types_of_fixed (isDyn : CSType → Bool)
    (structs : List (Snippet CSStruct)) (native : List String)
    (hfix : sweep isDyn structs native = (native, false)) :
    resolve_native_types isDyn structs native = native := by
  rw [resolve_native_types_eq, hfix]
  simp

/-- Spec-side helper for stating the marking rule: strip pointer layers. -/
def unwrap_pointers : CSType → CSType
  | .Pointer ty => unwrap_pointers ty
  | ty => ty

/-- `is_native_type` holds exactly of types that, after unwrapping pointer
layers, name a struct already in the native set. -/
theorem is_native_type_iff (native : List String) : ∀ ty : CSType,
    is_native_type native ty = true ↔
      ∃ n, unwrap_pointers ty = CSType.User n ∧ native.contains n = true
  | .Pointer ty => by
    rw [show is_native_type native (.Pointer ty) = is_native_type native ty from rfl,
      show unwrap_pointers (.Pointer ty) = unwrap_pointers ty from rfl]
    exact is_native_type_iff native ty
  | .User name => by simp [is_native_type, is_native_name, unwrap_pointers]
  | .Function f => by simp [is_native_type, unwrap_pointers]
  | .Array ty n => by simp [is_native_type, unwrap_pointers]
  | .Unit => by simp [is_native_type, unwrap_pointers]
  | .Bool => by simp [is_native_type, unwrap_pointers]
  | .CChar => by simp [is_native_type, unwrap_pointers]
  | .F32 => by simp [is_native_type, unwrap_pointers]
  | .F64 => by simp [is_native_type, unwrap_pointers]
  | .I8 => by simp [is_native_type, unwrap_pointers]
  | .I16 => by simp [is_native_type, unwrap_pointers]
  | .I32 => by simp [is_native_type, unwrap_pointers]
  | .I64 => by simp [is_native_type, unwrap_pointers]
  | .ISize => by simp [is_native_type, unwrap_pointers]
  | .U8 => by simp [is_native_type, unwrap_pointers]
  | .U16 => by simp [is_native_type, unwrap_pointers]
  | .U32 => by simp [is_native_type, unwrap_pointers]
  | .U64 => by simp [is_native_type, unwrap_pointers]
  | .USize => by simp [is_native_type, unwrap_pointers]
  | .String => by simp [is_native_type, unwrap_pointers]

/-- C1: native-type propagation over the collected struct set is monotonic
(membership only grows per sweep), reaches a fixed point after at most N full
sweeps for N structs, rerunning the loop on a set at its fixed point changes
nothing, and the marking condition tests whether a field is a
dynamically-sized array or, after unwrapping pointer layers, names a struct
already marked native. -/
theorem C1_native_type_propagation (isDyn : CSType → Bool)
    (structs : List (Snippet CSStruct)) (native : List String) :
    (∀ x ∈ native, x ∈ (sweep isDyn structs native).1)
    ∧ sweep isDyn structs (sweepIter isDyn structs structs.length native)
        = (sweepIter isDyn structs structs.length native, false)
    ∧ resolve_native_types isDyn structs
        (resolve_native_types isDyn structs native)
        = resolve_native_types isDyn structs native
    ∧ (∀ (nat : List String) (ty : CSType), is_native_type nat ty = true ↔
        ∃ n, unwrap_pointers ty = CSType.User n ∧ nat.contains n = true) := by
  refine ⟨fun x hx => sweep_mono isDyn structs native x hx, ?_, ?_, ?_⟩
  · exact sweepIter_reaches_fixed isDyn structs structs.length native
      (nativeMeasure_le structs native)
  · exact resolve_native_types_of_fixed isDyn structs _
      (resolve_native_types_fixed isDyn structs native)
  · intro nat ty
    exact is_native_type_iff nat ty

/-- Witness for C1 at a concrete struct collection: the seed name stays in
the set after a sweep. -/
theorem C1_native_type_propagation_witness :
    "T" ∈ (sweep (fun _ => false)
      [⟨"", "S", ⟨[⟨"f", CSType.User "T"⟩]⟩⟩, ⟨"", "T", ⟨[]⟩⟩] ["T"]).1 :=
  (C1_native_type_propagation (fun _ => false)
    [⟨"", "S", ⟨[⟨"f", CSType.User "T"⟩]⟩⟩, ⟨"", "T", ⟨[]⟩⟩] ["T"]).1 "T" (by simp)

/- ## Alias resolution (src/csharp/mod.rs, lines 182-204 and 643-681)

The `HashMap<String, Type>` alias table is embedded as an association list
(first match wins; keys are unique after insertion, and only lookup is
used here). -/

/-- `HashMap::get` on the alias table. -/
def assocLookup : List (String × CSType) → String → Option CSType
  | [], _ => none
  | (k, v) :: rest, n => if k == n then some v else assocLookup rest n

/-- Step-indexed embedding of `lookup_alias` (mod.rs 671-681).  The Rust
function recurses through `User` chains with no bound; `lookupAliasF aliases
fuel name = some r` means the recursion returns `r` within stack depth
`fuel`, while `none` means the recursion is still running at that depth.
A cyclic chain therefore yields `none` at every fuel (claim C4). -/
def lookupAliasF (aliases : List (String × CSType)) :
    Nat → String → Option (Option CSType)
  | 0, _ => none
  | fuel + 1, name =>
    match assocLookup aliases name with
    | none => some none
    | some ty =>
      match ty with
      | CSType.User name2 =>
        match lookupAliasF aliases fuel name2 with
        | none => none
        | some inner => some (some (inner.getD (CSType.User name2)))
      | _ => some (some ty)

/-- Total version of `lookup_alias` used by the resolution pass.  A
terminating chase visits pairwise-distinct keys, so `aliases.length + 1`
fuel suffices to reproduce every terminating run of the Rust function;
fuel exhaustion (which in Rust is a hang) is mapped to `none`. -/
def lookup_alias (aliases : List (String × CSType)) (name : String) : Option CSType :=
  (lookupAliasF aliases (aliases.length + 1) name).getD none

mutual

/-- `resolve_alias` (mod.rs 643-669): replace a `User` type by its transitive
alias target when the table has one; recurse into pointers, arrays and
function signatures; leave everything else alone. -/
def resolve_alias (aliases : List (String × CSType)) : CSType → CSType
  | .User name =>
    match lookup_alias aliases name with
    | some old => old
    | none => .User name
  | .Pointer ty => .Pointer (resolve_alias aliases ty)
  | .Array ty n => .Array (resolve_alias aliases ty) n
  | .Function f => .Function (resolve_alias_fun aliases f)
  | ty => ty

def resolve_alias_fun (aliases : List (String × CSType)) : CSFunction → CSFunction
  | .mk ins out => .mk (resolve_alias_inputs aliases ins) (resolve_alias aliases out)

def resolve_alias_inputs (aliases : List (String × CSType)) : CSInputs → CSInputs
  | .nil => .nil
  | .cons n t rest => .cons n (resolve_alias aliases t) (resolve_alias_inputs aliases rest)

end

/-- The collected snippet sets that `LangCSharp::resolve_aliases` walks
(the `consts`, `structs` and `functions` fields of `LangCSharp`). -/
structure Collection where
  consts : List (Snippet CSConst)
  structs : List (Snippet CSStruct)
  functions : List (Snippet CSFunction)
  deriving DecidableEq

/-- The struct-rename half of `resolve_aliases`: a struct whose own name is
an alias target pointing at another `User` name is renamed to that name. -/
def resolve_struct_name (aliases : List (String × CSType)) (name : String) : String :=
  match lookup_alias aliases name with
  | some (CSType.User n) => n
  | _ => name

/-- `LangCSharp::resolve_aliases` (mod.rs 182-204): resolve const types,
struct names and field types, and function parameter and return types. -/
def resolve_aliases (aliases : List (String × CSType)) (c : Collection) : Collection :=
  { consts := c.consts.map fun s =>
      { s with item := ⟨resolve_alias aliases s.item.ty⟩ }
    structs := c.structs.map fun s =>
      { s with
          name := resolve_struct_name aliases s.name
          item := ⟨s.item.fields.map fun f => { f with ty := resolve_alias aliases f.ty }⟩ }
    functions := c.functions.map fun s =>
      { s with item := CSFunction.mk (resolve_alias_inputs aliases s.item.inputs)
                          (resolve_alias aliases s.item.output) } }

/-- A fuel-respecting run that reports "not found" really hit a missing key. -/
theorem lookupAliasF_some_none (aliases : List (String × CSType)) :
    ∀ (fuel : Nat) (k : String), lookupAliasF aliases fuel k = some none →
      assocLookup aliases k = none := by
  intro fuel k h
  cases fuel with
  | zero => simp [lookupAliasF] at h
  | succ fuel =>
    rw [lookupAliasF] at h
    cases ha : assocLookup aliases k with
    | none => rfl
    | some ty =>
      rw [ha] at h
      exfalso
      cases ty <;> simp at h
      case User m =>
        cases hi : lookupAliasF aliases fuel m <;> rw [hi] at h <;> simp at h

/-- A terminating `lookup_alias` run never returns a `User` name that is
itself a key of the table (the chase would have continued). -/
theorem lookupAliasF_user_not_key (aliases : List (String × CSType)) :
    ∀ (fuel : Nat) (n m : String),
      lookupAliasF aliases fuel n = some (some (CSType.User m)) →
      assocLookup aliases m = none := by
  intro fuel
  induction fuel with
  | zero => intro n m h; simp [lookupAliasF] at h
  | succ fuel ih =>
    intro n m h
    rw [lookupAliasF] at h
    cases ha : assocLookup aliases n with
    | none => rw [ha] at h; simp at h
    | some ty =>
      rw [ha] at h
      cases ty <;> simp at h
      case User k =>
        cases hi : lookupAliasF aliases fuel k with
        | none => rw [hi] at h; simp at h
        | some inner =>
          rw [hi] at h
          simp only [Option.some.injEq] at h
          cases inner with
          | none =>
            have hk : m = k := by simpa using h.symm
            subst hk
            exact lookupAliasF_some_none aliases fuel m hi
          | some t2 =>
            have ht2 : t2 = CSType.User m := by simpa using h
            subst ht2
            exact ih k m hi

/-- Lift of `lookupAliasF_user_not_key` to the total `lookup_alias`. -/
theorem lookup_alias_user_not_key (aliases : List (String × CSType)) (n m : String)
    (h : lookup_alias aliases n = some (CSType.User m)) :
    lookup_alias aliases m = none := by
  unfold lookup_alias at h
  cases hf : lookupAliasF aliases (aliases.length + 1) n with
  | none => rw [hf] at h; simp at h
  | some r =>
    rw [hf] at h
    simp only [Option.getD_some] at h
    subst h
    have hm := lookupAliasF_user_not_key aliases (aliases.length + 1) n m hf
    unfold lookup_alias
    rw [lookupAliasF, hm]
    rfl

/-- The struct-rename half of alias resolution is idempotent. -/
theorem resolve_struct_name_idem (aliases : List (String × CSType)) (name : String) :
    resolve_struct_name aliases (resolve_struct_name aliases name)
      = resolve_struct_name aliases name := by
  cases hl : lookup_alias aliases name with
  | none => simp [resolve_struct_name, hl]
  | some ty =>
    cases ty with
    | User m =>
      have hm := lookup_alias_user_not_key aliases name m hl
      simp [resolve_struct_name, hl, hm]
    | _ => simp [resolve_struct_name, hl]

mutual

/-- Type-level idempotence of `resolve_alias`, assuming every type the alias
table hands out is itself already fully resolved. -/
theorem resolve_alias_idem (aliases : List (String × CSType))
    (h : ∀ n t, lookup_alias aliases n = some t → resolve_alias aliases t = t) :
    ∀ t : CSType, resolve_alias aliases (resolve_alias aliases t) = resolve_alias aliases t
  | .User name => by
    cases hl : lookup_alias aliases name with
    | some old =>
      rw [show resolve_alias aliases (.User name) = old from by simp [resolve_alias, hl]]
      exact h name old hl
    | none => simp [resolve_alias, hl]
  | .Pointer ty => by
    simp only [resolve_alias]
    rw [resolve_alias_idem aliases h ty]
  | .Array ty n => by
    simp only [resolve_alias]
    rw [resolve_alias_idem aliases h ty]
  | .Function f => by
    simp only [resolve_alias]
    rw [resolve_alias_fun_idem aliases h f]
  | .Unit => by simp [resolve_alias]
  | .Bool => by simp [resolve_alias]
  | .CChar => by simp [resolve_alias]
  | .F32 => by simp [resolve_alias]
  | .F64 => by simp [resolve_alias]
  | .I8 => by simp [resolve_alias]
  | .I16 => by simp [resolve_alias]
  | .I32 => by simp [resolve_alias]
  | .I64 => by simp [resolve_alias]
  | .ISize => by simp [resolve_alias]
  | .U8 => by simp [resolve_alias]
  | .U16 => by simp [resolve_alias]
  | .U32 => by simp [resolve_alias]
  | .U64 => by simp [resolve_alias]
  | .USize => by simp [resolve_alias]
  | .String => by simp [resolve_alias]

/-- Signature-level idempotence of `resolve_alias`. -/
theorem resolve_alias_fun_idem (aliases : List (String × CSType))
    (h : ∀ n t, lookup_alias aliases n = some t → resolve_alias aliases t = t) :
    ∀ f : CSFunction,
      resolve_alias_fun aliases (resolve_alias_fun aliases f) = resolve_alias_fun aliases f
  | .mk ins out => by
    simp only [resolve_alias_fun]
    rw [resolve_alias_inputs_idem aliases h ins, resolve_alias_idem aliases h out]

/-- Parameter-list-level idempotence of `resolve_alias`. -/
theorem resolve_alias_inputs_idem (aliases : List (String × CSType))
    (h : ∀ n t, lookup_alias aliases n = some t → resolve_alias aliases t = t) :
    ∀ ins : CSInputs,
      resolve_alias_inputs aliases (resolve_alias_inputs aliases ins)
        = resolve_alias_inputs aliases ins
  | .nil => by simp [resolve_alias_inputs]
  | .cons n t rest => by
    simp only [resolve_alias_inputs]
    rw [resolve_alias_idem aliases h t, resolve_alias_inputs_idem aliases h rest]

end

/-- C3 (amended): the alias-resolution pass is idempotent on every collection
PROVIDED every type the transitive alias lookup returns is already fully
resolved (no alias value nests a further resolvable `Named` reference below
its top level); `C3_resolve_counterexample` shows the unconditional claim
fails. -/
theorem C3_resolve_aliases_idem (aliases : List (String × CSType)) (c : Collection)
    (h : ∀ n t, lookup_alias aliases n = some t → resolve_alias aliases t = t) :
    resolve_aliases aliases (resolve_aliases aliases c) = resolve_aliases aliases c := by
  simp only [resolve_aliases, List.map_map]
  simp [Function.comp_def, resolve_alias_idem aliases h,
    resolve_alias_inputs_idem aliases h, resolve_struct_name_idem aliases,
    CSFunction.inputs, CSFunction.output, List.map_map]

/-- Witness for C3 (amended) on the one-entry table `A ↦ i32`: the
hypothesis holds and resolution of a collection using the alias twice equals
resolving it once. -/
theorem C3_resolve_aliases_idem_witness :
    resolve_aliases [("A", CSType.I32)]
        (resolve_aliases [("A", CSType.I32)]
          ⟨[⟨"", "C", ⟨CSType.User "A"⟩⟩], [], []⟩)
      = resolve_aliases [("A", CSType.I32)] ⟨[⟨"", "C", ⟨CSType.User "A"⟩⟩], [], []⟩ := by
  apply C3_resolve_aliases_idem
  intro n t hl
  have ha : assocLookup [("A", CSType.I32)] n = none ∨ t = CSType.I32 := by
    by_cases he : "A" == n
    · right
      simp [lookup_alias, lookupAliasF, assocLookup, he] at hl
      exact hl.symm
    · left
      simp [assocLookup, he]
    
  rcases ha with ha | ha
  · exfalso
    simp [lookup_alias, lookupAliasF, ha] at hl
  · subst ha
    rfl

/-- C3 (counterexample): with the collected table `A ↦ [B; 4], B ↦ i32`
(from `pub type A = [B; 4]; pub type B = i32;`) and a struct field of type
`A`, one resolution pass produces the field type `[B; 4]` but a second pass
rewrites it further to `[i32; 4]`, so `resolve ∘ resolve ≠ resolve`. -/
theorem C3_resolve_counterexample :
    resolve_aliases [("A", CSType.Array (CSType.User "B") 4), ("B", CSType.I32)]
        (resolve_aliases [("A", CSType.Array (CSType.User "B") 4), ("B", CSType.I32)]
          ⟨[], [⟨"", "S", ⟨[⟨"f", CSType.User "A"⟩]⟩⟩], []⟩)
      ≠ resolve_aliases [("A", CSType.Array (CSType.User "B") 4), ("B", CSType.I32)]
          ⟨[], [⟨"", "S", ⟨[⟨"f", CSType.User "A"⟩]⟩⟩], []⟩ := by
  decide

/-- C4: the transitive alias lookup of the source recurses with no bound on
the malformed cyclic table `a ↦ b, b ↦ a`: at every recursion depth the
run of `lookup_alias` on `"a"` (or `"b"`) is still going (`none` in the
step-indexed embedding), i.e. the code hangs instead of failing. -/
theorem C4_lookup_alias_diverges_on_cycle : ∀ fuel : Nat,
    lookupAliasF [("a", CSType.User "b"), ("b", CSType.User "a")] fuel "a" = none ∧
    lookupAliasF [("a", CSType.User "b"), ("b", CSType.User "a")] fuel "b" = none := by
  intro fuel
  induction fuel with
  | zero => exact ⟨rfl, rfl⟩
  | succ fuel ih =>
    constructor
    · rw [lookupAliasF]
      rw [show assocLookup [("a", CSType.User "b"), ("b", CSType.User "a")] "a"
          = some (CSType.User "b") from by decide]
      simp only [ih.2]
    · rw [lookupAliasF]
      rw [show assocLookup [("a", CSType.User "b"), ("b", CSType.User "a")] "b"
          = some (CSType.User "a") from by decide]
      simp only [ih.1]

/- ## Wrapper eligibility (src/csharp/mod.rs, lines 238-240 and 462-468) -/

/-- Modelled from the spec: `num_callbacks` lives in the absent emit module;
per spec section 4.6 it is the number of parameters recognized as callbacks
(the parameters `extract_callbacks` selects). -/
def num_callbacks (inputs : CSInputs) : Nat :=
  (extract_callbacks inputs).length

/-- `LangCSharp::is_interface_function`: not blacklisted and at most one
callback parameter. -/
def is_interface_function (wrapper_function_blacklist : List String)
    (name : String) (item : CSFunction) : Bool :=
  !wrapper_function_blacklist.contains name && num_callbacks item.inputs ≤ 1

/-- The functions for which `finalise_output` emits a convenience wrapper
(mod.rs 462-468: `emit_wrapper_function` is called exactly for the snippets
passing `is_interface_function`; the same filter selects the interface
declarations at mod.rs 496-531). -/
def wrapperFunctions (wrapper_function_blacklist : List String)
    (functions : List (Snippet CSFunction)) : List (Snippet CSFunction) :=
  functions.filter fun snippet =>
    is_interface_function wrapper_function_blacklist snippet.name snippet.item

/-- C7: a collected function gets a convenience wrapper iff its name is not
in the wrapper-function blacklist and it has at most one callback
parameter. -/
theorem C7_wrapper_eligibility (wrapper_function_blacklist : List String)
    (functions : List (Snippet CSFunction)) (s : Snippet CSFunction)
    (hmem : s ∈ functions) :
    s ∈ wrapperFunctions wrapper_function_blacklist functions ↔
      (wrapper_function_blacklist.contains s.name = false ∧
        (extract_callbacks s.item.inputs).length ≤ 1) := by
  unfold wrapperFunctions
  rw [List.mem_filter]
  unfold is_interface_function
  constructor
  · intro ⟨_, hp⟩
    simp only [Bool.and_eq_true, Bool.not_eq_true', decide_eq_true_eq] at hp
    exact ⟨hp.1, hp.2⟩
  · intro ⟨h1, h2⟩
    refine ⟨hmem, ?_⟩
    simp only [Bool.and_eq_true, Bool.not_eq_true', decide_eq_true_eq]
    exact ⟨h1, h2⟩

/-- Witness for C7: a function with one callback parameter and an empty
blacklist is wrapper-eligible. -/
theorem C7_wrapper_eligibility_witness :
    (⟨"", "fn1", CSFunction.mk
        (CSInputs.cons "cb"
          (CSType.Function (CSFunction.mk
            (CSInputs.cons "user_data" (CSType.Pointer CSType.Unit) CSInputs.nil)
            CSType.Unit))
          CSInputs.nil)
        CSType.Unit⟩ : Snippet CSFunction)
      ∈ wrapperFunctions []
        [⟨"", "fn1", CSFunction.mk
          (CSInputs.cons "cb"
            (CSType.Function (CSFunction.mk
              (CSInputs.cons "user_data" (CSType.Pointer CSType.Unit) CSInputs.nil)
              CSType.Unit))
            CSInputs.nil)
          CSType.Unit⟩] :=
  (C7_wrapper_eligibility [] _ _ (List.mem_singleton.mpr rfl)).mpr (by decide)

/-- C10: for a callback signature with at least one parameter,
`callback_arity` is the parameter count minus the context parameter and the
`usize` subtraction cannot underflow; the non-empty precondition is needed
because an empty parameter list would make `inputs.len() - 1` underflow
(`len() < 1`). -/
theorem C10_callback_arity (f : CSFunction) (h : f.inputs ≠ CSInputs.nil) :
    callback_arity f + 1 = f.inputs.length ∧
    callback_arity f = f.inputs.length - 1 ∧
    (∀ g : CSFunction, g.inputs = CSInputs.nil → g.inputs.length < 1) := by
  refine ⟨?_, rfl, ?_⟩
  · unfold callback_arity
    cases hi : f.inputs with
    | nil => exact absurd hi h
    | cons n t rest =>
      rw [CSInputs.length]
      omega
  · intro g hg
    rw [hg]
    decide

/-- Witness for C10 on a one-parameter callback signature. -/
theorem C10_callback_arity_witness :
    callback_arity (CSFunction.mk
        (CSInputs.cons "user_data" (CSType.Pointer CSType.Unit) CSInputs.nil)
        CSType.Unit) + 1
      = (CSFunction.mk
          (CSInputs.cons "user_data" (CSType.Pointer CSType.Unit) CSInputs.nil)
          CSType.Unit).inputs.length :=
  (C10_callback_arity _ (by decide)).1

/- ## The consumed AST fragment (external parser interface)

The generator consumes `syntax::ast` values.  The fragment below embeds
exactly the shapes the sources inspect: path types, raw pointers, fixed-size
arrays, bare-function types, the never type, and a catch-all `Other` carrying
its printed text (used only through `pprust`-style printing).  Function
parameter lists are the bespoke list `RustArgs` so recursion over the family
stays structural. -/

/-- `syntax::abi::Abi`, restricted to the cases the sources distinguish. -/
inductive Abi where
  | C
  | Cdecl
  | Stdcall
  | Fastcall
  | System
  | Rust
  deriving DecidableEq

/-- The `ast::Expr` shapes that `extract_int_literal` distinguishes: an
integer literal, or anything else. -/
inductive RustExpr where
  | litInt (val : Nat)
  | otherExpr
  deriving DecidableEq

mutual

inductive RustTy where
  | Array (ty : RustTy) (size : RustExpr)
  | Path (segs : List String)
  | Ptr (mutbl : Bool) (ty : RustTy)
  | BareFn (f : BareFnTy)
  | Never
  | Other (printed : String)
  deriving DecidableEq

inductive BareFnTy where
  | mk (abi : Abi) (lifetimes : Nat) (decl : FnDecl)
  deriving DecidableEq

inductive FnDecl where
  | mk (inputs : RustArgs) (output : RetTy)
  deriving DecidableEq

inductive RustArgs where
  | nil
  | cons (arg : RustArg) (rest : RustArgs)
  deriving DecidableEq

inductive RustArg where
  | mk (pat : String) (ty : RustTy)
  deriving DecidableEq

inductive RetTy where
  | default
  | ty (t : RustTy)
  deriving DecidableEq

end

def BareFnTy.abi : BareFnTy → Abi
  | .mk a _ _ => a

def BareFnTy.lifetimes : BareFnTy → Nat
  | .mk _ l _ => l

def BareFnTy.decl : BareFnTy → FnDecl
  | .mk _ _ d => d

def FnDecl.inputs : FnDecl → RustArgs
  | .mk ins _ => ins

def FnDecl.output : FnDecl → RetTy
  | .mk _ out => out

def RustArg.pat : RustArg → String
  | .mk p _ => p

def RustArg.ty : RustArg → RustTy
  | .mk _ t => t

def RustArgs.toList : RustArgs → List RustArg
  | .nil => []
  | .cons a rest => a :: rest.toList

/-- Join a list of strings with a separator (`Vec::join` / pprust
interleaving, re-implemented structurally). -/
def joinSep (sep : String) : List String → String
  | [] => ""
  | [s] => s
  | s :: rest => s ++ sep ++ joinSep sep rest

/-- `pprust::ty_to_string` on the embedded fragment, matching the printer on
the shapes the sources compare against string literals (`"usize"`,
`"*mut c_void"`, `"*const FfiResult"`, `"c_char"`, `"()"`, `"!"`). -/
def tyToString : RustTy → String
  | .Path segs => joinSep "::" segs
  | .Ptr true ty => "*mut " ++ tyToString ty
  | .Ptr false ty => "*const " ++ tyToString ty
  | .Array ty _ => "[" ++ tyToString ty ++ "; _]"
  | .BareFn _ => "fn(..)"
  | .Never => "!"
  | .Other printed => printed

/- ## Shared argument predicates (src/common.rs, lines 47-151) -/

/-- The `ast::MetaItemKind` shapes the attribute checks distinguish: a bare
word, a list (with the names of its first-level items), a name-value pair
with a string literal, or a name-value pair with another literal. -/
inductive AttrValue where
  | word
  | list (items : List String)
  | nameValueStr (s : String)
  | nameValueOther
  deriving DecidableEq

/-- `ast::Attribute`: its name and value shape. -/
structure Attribute where
  name : String
  value : AttrValue
  deriving DecidableEq

/-- `check_no_mangle`: the attribute is the bare word `#[no_mangle]`. -/
def check_no_mangle (attr : Attribute) : Bool :=
  match attr.value with
  | .word => attr.name == "no_mangle"
  | _ => false

/-- `check_repr_c` (common.rs 111-128): the attribute is `#[repr(C)]` — a
list named `repr` whose first item is the meta item `C`. -/
def check_repr_c (attr : Attribute) : Bool :=
  match attr.value with
  | .list items =>
    attr.name == "repr" &&
      (match items.head? with
       | some item => item == "C"
       | none => false)
  | _ => false

/-- `retrieve_docstring` (common.rs 130-142): a `doc` name-value attribute
contributes its string, prefixed and newline-terminated. -/
def retrieve_docstring (attr : Attribute) (prepend : String) : Option String :=
  match attr.value with
  | .nameValueStr docs =>
    if attr.name == "doc" then some (prepend ++ docs ++ "\n") else none
  | _ => none

/-- `parse_attr` (common.rs 90-109): fold over the attribute list; the check
latches to `true`, the retrieved strings are concatenated in order. -/
def parse_attr (attrs : List Attribute) (check : Attribute → Bool)
    (retrieve : Attribute → Option String) : Bool × String :=
  attrs.foldl
    (fun acc attr =>
      (acc.1 || check attr, acc.2 ++ ((retrieve attr).getD "")))
    (false, "")

/-- `is_user_data_arg`: the argument prints as `user_data: *mut c_void`. -/
def is_user_data_arg (arg : RustArg) : Bool :=
  arg.pat == "user_data" && tyToString arg.ty == "*mut c_void"

/-- `is_result_arg`: the argument prints as `result: *const FfiResult`. -/
def is_result_arg (arg : RustArg) : Bool :=
  arg.pat == "result" && tyToString arg.ty == "*const FfiResult"

/-- `str::ends_with`, re-implemented structurally over the character data. -/
def strEndsWith (s suffix : String) : Bool :=
  suffix.data.isSuffixOf s.data

/-- `is_ptr_len_arg`: a `usize` argument named `*_len`, `len` or `size`.
Note that the name is NOT compared against the preceding pointer name. -/
def is_ptr_len_arg (arg : RustArg) : Bool :=
  tyToString arg.ty == "usize" &&
    (strEndsWith arg.pat "_len" || arg.pat == "len" || arg.pat == "size")

/-- `is_array_arg`: a pointer-typed argument (other than the result arg)
whose immediate successor is a ptr-len argument. -/
def is_array_arg (arg : RustArg) (next_arg : Option RustArg) : Bool :=
  match arg.ty with
  | .Ptr _ _ => !is_result_arg arg && (next_arg.map is_ptr_len_arg).getD false
  | _ => false

/-- `is_extern` (common.rs 146-151; suffix `_abi` added to the Lean name):
the calling convention is C-compatible. -/
def is_extern_abi (abi : Abi) : Bool :=
  match abi with
  | .C | .Cdecl | .Stdcall | .Fastcall | .System => true
  | _ => false

/- ## The C# type transformer (src/csharp/intermediate.rs, lines 36-130) -/

/-- `extract_int_literal`: only an integer-literal expression yields a
size. -/
def extract_int_literal : RustExpr → Option Nat
  | .litInt val => some val
  | .otherExpr => none

/-- `transform_path` (intermediate.rs 95-121): match the printed path
against the fixed primitive-spelling table; anything else becomes a `User`
reference carrying the spelling verbatim. -/
def transform_path (input : RustTy) : Option CSType :=
  let full := tyToString input
  let output :=
    if full == "bool" then CSType.Bool
    else if full == "c_char" || full == "libc::c_char" || full == "std::os::raw::c_char"
    then CSType.CChar
    else if full == "f32" then CSType.F32
    else if full == "f64" then CSType.F64
    else if full == "i8" then CSType.I8
    else if full == "i16" then CSType.I16
    else if full == "i32" then CSType.I32
    else if full == "i64" then CSType.I64
    else if full == "isize" then CSType.ISize
    else if full == "u8" then CSType.U8
    else if full == "u16" then CSType.U16
    else if full == "u32" then CSType.U32
    else if full == "u64" then CSType.U64
    else if full == "usize" then CSType.USize
    else if full == "c_void" || full == "libc::c_void" || full == "std::os::raw::c_void"
    then CSType.Unit
    else CSType.User full
  some output

mutual

/-- `transform_type` (intermediate.rs 36-46): dispatch on the type shape;
anything but arrays, plain paths, pointers and bare functions is
unsupported. -/
def transform_type : RustTy → Option CSType
  | .Array ty size => transform_array ty size
  | .Path segs => transform_path (.Path segs)
  | .Ptr m ty => transform_pointer m ty
  | .BareFn (.mk _abi _lifetimes decl) =>
    match transform_function decl with
    | some f => some (CSType.Function f)
    | none => none
  | _ => none
termination_by t => sizeOf t * 2

/-- `transform_array` (intermediate.rs 80-93): fail unless the size is an
integer literal; fail if the element itself transforms to an array
(multi-dimensional arrays unsupported). -/
def transform_array (ty : RustTy) (size : RustExpr) : Option CSType :=
  match extract_int_literal size with
  | none => none
  | some size =>
    match transform_type ty with
    | none => none
    | some (CSType.Array _ _) => none
    | some ty => some (CSType.Array ty size)
termination_by (sizeOf ty + sizeOf size) * 2 + 1

/-- `transform_pointer` (intermediate.rs 123-130): collapse pointer-to-char
to `String` and pointer-to-`User` to the bare `User`; otherwise keep the
pointer. -/
def transform_pointer (_mutbl : Bool) (ty : RustTy) : Option CSType :=
  match transform_type ty with
  | some CSType.CChar => some CSType.String
  | some (CSType.User name) => some (CSType.User name)
  | some ty => some (CSType.Pointer ty)
  | none => none
termination_by sizeOf ty * 2 + 1

/-- `transform_function` (intermediate.rs 48-78): transform the return type
(`Default` becomes `Unit`) and every parameter type; fail if any fails. -/
def transform_function (decl : FnDecl) : Option CSFunction :=
  match decl with
  | .mk inputs output =>
    match
      (match output with
       | .default => some CSType.Unit
       | .ty ty => transform_type ty) with
    | none => none
    | some out =>
      match transform_inputs inputs with
      | none => none
      | some ins => some (CSFunction.mk ins out)
termination_by sizeOf decl * 2 + 1

/-- The `decl.inputs.iter().map(..).collect::<Option<_>>()` loop of
`transform_function`. -/
def transform_inputs : RustArgs → Option CSInputs
  | .nil => some CSInputs.nil
  | .cons (.mk pat ty) rest =>
    match transform_type ty with
    | none => none
    | some ty2 =>
      match transform_inputs rest with
      | none => none
      | some tail => some (CSInputs.cons pat ty2 tail)
termination_by args => sizeOf args * 2 + 1

end

/-- Spec-side helper: the type is not an `Array` at the top level. -/
def notArrayTop : CSType → Bool
  | .Array _ _ => false
  | _ => true

mutual

/-- Spec-side invariant: no `Array` directly nests an `Array`, anywhere in
the type (through pointers and function signatures). -/
def noNestedArray : CSType → Bool
  | .Pointer t => noNestedArray t
  | .Array t _ => notArrayTop t && noNestedArray t
  | .Function f => noNestedArrayFun f
  | _ => true

def noNestedArrayFun : CSFunction → Bool
  | .mk ins out => noNestedArrayInputs ins && noNestedArray out

def noNestedArrayInputs : CSInputs → Bool
  | .nil => true
  | .cons _ t rest => noNestedArray t && noNestedArrayInputs rest

end

/-- The invariant distributes over an if-then-else. -/
theorem noNestedArray_ite (c : Prop) [Decidable c] (a b : CSType)
    (ha : noNestedArray a = true) (hb : noNestedArray b = true) :
    noNestedArray (if c then a else b) = true := by
  split <;> assumption

/-- Every type `transform_path` produces satisfies the no-nested-array
invariant (it is a primitive or a bare `User` reference). -/
theorem transform_path_noNested (input : RustTy) (t2 : CSType)
    (h : transform_path input = some t2) : noNestedArray t2 = true := by
  unfold transform_path at h
  simp only [Option.some.injEq] at h
  subst h
  repeat' apply noNestedArray_ite
  all_goals rfl

mutual

/-- Types produced by `transform_type` never nest an array in an array. -/
theorem transform_type_noNested : ∀ (t : RustTy) (t2 : CSType),
    transform_type t = some t2 → noNestedArray t2 = true
  | .Array ty size, t2, h => by
    simp only [transform_type] at h
    exact transform_array_noNested ty size t2 h
  | .Path segs, t2, h => by
    simp only [transform_type] at h
    exact transform_path_noNested (.Path segs) t2 h
  | .Ptr m ty, t2, h => by
    simp only [transform_type] at h
    exact transform_pointer_noNested m ty t2 h
  | .BareFn (.mk a l d), t2, h => by
    simp only [transform_type] at h
    cases hf : transform_function d with
    | none => rw [hf] at h; simp at h
    | some f =>
      rw [hf] at h
      simp only [Option.some.injEq] at h
      subst h
      simp only [noNestedArray]
      exact transform_function_noNested d f hf
  | .Never, t2, h => by simp [transform_type] at h
  | .Other s, t2, h => by simp [transform_type] at h
termination_by t => sizeOf t * 2

theorem transform_array_noNested : ∀ (ty : RustTy) (size : RustExpr) (t2 : CSType),
    transform_array ty size = some t2 → noNestedArray t2 = true
  | ty, size, t2, h => by
    simp only [transform_array] at h
    cases hsz : extract_int_literal size with
    | none => rw [hsz] at h; simp at h
    | some k =>
      rw [hsz] at h
      cases ht : transform_type ty with
      | none => rw [ht] at h; simp at h
      | some e =>
        rw [ht] at h
        have he := transform_type_noNested ty e ht
        cases e <;> simp at h
        all_goals (subst h; simp_all [noNestedArray, notArrayTop])
termination_by ty size => (sizeOf ty + sizeOf size) * 2 + 1

theorem transform_pointer_noNested : ∀ (m : Bool) (ty : RustTy) (t2 : CSType),
    transform_pointer m ty = some t2 → noNestedArray t2 = true
  | m, ty, t2, h => by
    simp only [transform_pointer] at h
    cases ht : transform_type ty with
    | none => rw [ht] at h; simp at h
    | some e =>
      rw [ht] at h
      have he := transform_type_noNested ty e ht
      cases e <;> simp at h
      all_goals (subst h; simp_all [noNestedArray])
termination_by m ty => sizeOf ty * 2 + 1

theorem transform_function_noNested : ∀ (d : FnDecl) (f : CSFunction),
    transform_function d = some f → noNestedArrayFun f = true
  | .mk inputs output, f, h => by
    cases output with
    | default =>
      simp only [transform_function] at h
      cases hti : transform_inputs inputs with
      | none => rw [hti] at h; simp at h
      | some ins =>
        rw [hti] at h
        simp only [Option.some.injEq] at h
        subst h
        simp only [noNestedArrayFun, Bool.and_eq_true]
        exact ⟨transform_inputs_noNested inputs ins hti, rfl⟩
    | ty t =>
      simp only [transform_function] at h
      cases hto : transform_type t with
      | none => rw [hto] at h; simp at h
      | some out =>
        rw [hto] at h
        cases hti : transform_inputs inputs with
        | none => rw [hti] at h; simp at h
        | some ins =>
          rw [hti] at h
          simp only [Option.some.injEq] at h
          subst h
          simp only [noNestedArrayFun, Bool.and_eq_true]
          exact ⟨transform_inputs_noNested inputs ins hti,
            transform_type_noNested t out hto⟩
termination_by d => sizeOf d * 2 + 1

theorem transform_inputs_noNested : ∀ (args : RustArgs) (ins : CSInputs),
    transform_inputs args = some ins → noNestedArrayInputs ins = true
  | .nil, ins, h => by
    simp only [transform_inputs, Option.some.injEq] at h
    subst h
    rfl
  | .cons (.mk pat ty) rest, ins, h => by
    simp only [transform_inputs] at h
    cases ht : transform_type ty with
    | none => rw [ht] at h; simp at h
    | some ty2 =>
      rw [ht] at h
      cases hr : transform_inputs rest with
      | none => rw [hr] at h; simp at h
      | some tail =>
        rw [hr] at h
        simp only [Option.some.injEq] at h
        subst h
        simp only [noNestedArrayInputs, Bool.and_eq_true]
        exact ⟨transform_type_noNested ty ty2 ht,
          transform_inputs_noNested rest tail hr⟩
termination_by args => sizeOf args * 2 + 1

end

/-- C6: `transform_array` fails when the element type itself transforms to
an array (never flattening or truncating) and when the size expression is
not an integer literal; consequently no type produced by `transform_type`
contains an `Array` directly nested in an `Array`. -/
theorem C6_multidim_arrays_rejected :
    (∀ (ty : RustTy) (size : RustExpr),
      (∃ e n, transform_type ty = some (CSType.Array e n)) →
      transform_array ty size = none)
    ∧ (∀ (ty : RustTy) (size : RustExpr), extract_int_literal size = none →
      transform_array ty size = none)
    ∧ (∀ (t : RustTy) (t2 : CSType), transform_type t = some t2 →
      noNestedArray t2 = true) := by
  refine ⟨?_, ?_, fun t t2 h => transform_type_noNested t t2 h⟩
  · rintro ty size ⟨e, n, he⟩
    cases hsz : extract_int_literal size with
    | none => simp [transform_array, hsz]
    | some k => simp [transform_array, hsz, he]
  · intro ty size hsz
    simp [transform_array, hsz]

/-- Witness for C6: the two-dimensional array `[[u8; 3]; 5]` and the
non-literal-sized array both fail to transform. -/
theorem C6_multidim_arrays_rejected_witness :
    transform_array (RustTy.Array (RustTy.Path ["u8"]) (RustExpr.litInt 3))
        (RustExpr.litInt 5) = none ∧
    transform_array (RustTy.Path ["u8"]) RustExpr.otherExpr = none :=
  ⟨C6_multidim_arrays_rejected.1 _ _
      ⟨CSType.U8, 3, by
        simp [transform_type, transform_array, transform_path, extract_int_literal,
          tyToString, joinSep]⟩,
    C6_multidim_arrays_rejected.2.1 _ _ rfl⟩

/-- `is_user_data` holds exactly of the pair `user_data : *mut c_void`. -/
theorem is_user_data_iff (name : String) (ty : CSType) :
    is_user_data name ty = true ↔
      (name = "user_data" ∧ ty = CSType.Pointer CSType.Unit) := by
  constructor
  · intro h
    unfold is_user_data at h
    split at h
    · exact ⟨by simpa using h, rfl⟩
    · simp at h
  · rintro ⟨h1, h2⟩
    subst h1; subst h2
    simp [is_user_data]

/-- A parameter is recognized as a callback exactly when it is
function-pointer-typed and its own first parameter is the `user_data`
context pair. -/
theorem extract_callback_isSome_iff : ∀ ty : CSType,
    (extract_callback ty).isSome = true ↔
      ∃ (f : CSFunction) (rest : CSInputs), ty = CSType.Function f ∧
        f.inputs = CSInputs.cons "user_data" (CSType.Pointer CSType.Unit) rest
  | .Function (.mk .nil out) => by
    simp [extract_callback, CSFunction.inputs, CSInputs.head?]
  | .Function (.mk (.cons n t rest) out) => by
    constructor
    · intro hs
      unfold extract_callback at hs
      simp only [CSFunction.inputs, CSInputs.head?] at hs
      by_cases hu : is_user_data n t
      · obtain ⟨h1, h2⟩ := (is_user_data_iff n t).mp hu
        subst h1; subst h2
        exact ⟨CSFunction.mk (.cons "user_data" (.Pointer .Unit) rest) out, rest,
          rfl, rfl⟩
      · rw [if_neg hu] at hs
        simp at hs
    · rintro ⟨f, rest2, hf, hins⟩
      injection hf with hf
      subst hf
      simp only [CSFunction.inputs] at hins
      injection hins with h1 h2 h3
      subst h1; subst h2; subst h3
      simp [extract_callback, CSFunction.inputs, CSInputs.head?, is_user_data]
  | .Unit => by simp [extract_callback]
  | .Bool => by simp [extract_callback]
  | .CChar => by simp [extract_callback]
  | .F32 => by simp [extract_callback]
  | .F64 => by simp [extract_callback]
  | .I8 => by simp [extract_callback]
  | .I16 => by simp [extract_callback]
  | .I32 => by simp [extract_callback]
  | .I64 => by simp [extract_callback]
  | .ISize => by simp [extract_callback]
  | .U8 => by simp [extract_callback]
  | .U16 => by simp [extract_callback]
  | .U32 => by simp [extract_callback]
  | .U64 => by simp [extract_callback]
  | .USize => by simp [extract_callback]
  | .String => by simp [extract_callback]
  | .Pointer ty => by simp [extract_callback]
  | .Array ty n => by simp [extract_callback]
  | .User name => by simp [extract_callback]

/- ## The Java emitter (src/java/mod.rs) and its collaborators -/

/-- Modelled from the spec: capitalize the first character (piece of the
external Inflector naming collaborator). -/
def capWord (w : List Char) : List Char :=
  match w with
  | [] => []
  | c :: cs => c.toUpper :: cs

/-- Split a character list at underscores. -/
def splitOnUnderscore : List Char → List (List Char)
  | [] => [[]]
  | '_' :: rest => [] :: splitOnUnderscore rest
  | c :: rest =>
    match splitOnUnderscore rest with
    | [] => [[c]]
    | w :: ws => (c :: w) :: ws

/-- Modelled from the spec: `Inflector::to_camel_case`, the external naming
collaborator (snake_case to camelCase). -/
def toCamelCase (s : String) : String :=
  match splitOnUnderscore s.data with
  | [] => s
  | w :: ws => ⟨w ++ (ws.map capWord).flatten⟩

/-- Modelled from the spec: `Inflector::to_class_case`, the external naming
collaborator (to PascalCase). -/
def toClassCase (s : String) : String :=
  ⟨capWord (toCamelCase s).data⟩

/-- `str::replace(.., "///", " *")` specialized to the pattern the source
uses, re-implemented structurally (left-to-right, non-overlapping). -/
def docReplace : List Char → List Char
  | '/' :: '/' :: '/' :: rest => ' ' :: '*' :: docReplace rest
  | c :: rest => c :: docReplace rest
  | [] => []

/-- `Outputs = HashMap<PathBuf, String>`, embedded as an association list
with unique keys (insert overwrites in place, lookup takes the first
match). -/
abbrev Outputs := List (String × String)

def olookup : Outputs → String → Option String
  | [], _ => none
  | (k, v) :: rest, key => if k == key then some v else olookup rest key

def oinsert : Outputs → String → String → Outputs
  | [], key, val => [(key, val)]
  | (k, v) :: rest, key, val =>
    if k == key then (key, val) :: rest else (k, v) :: oinsert rest key val

/-- `outputs.entry(key)`: append to an occupied entry, insert otherwise
(java/mod.rs 247-252). -/
def oappendEntry (outputs : Outputs) (key val : String) : Outputs :=
  match olookup outputs key with
  | some old => oinsert outputs key (old ++ val)
  | none => oinsert outputs key val

/-- `Level` from the driver crate (severity of a diagnostic). -/
inductive JLevel where
  | error
  | bug
  deriving DecidableEq

/-- `Error` from the driver crate: severity plus message (the source
location span is omitted -- it is opaque to all the logic here). -/
structure JErr where
  level : JLevel
  message : String
  deriving DecidableEq

/-- `libc_ty_to_java` (java/mod.rs 442-459). -/
def libc_ty_to_java (ty : String) : String :=
  if ty == "c_void" then "void"
  else if ty == "c_float" then "float"
  else if ty == "c_double" then "double"
  else if ty == "c_char" then "byte"
  else if ty == "c_schar" then "byte"
  else if ty == "c_uchar" then "byte"
  else if ty == "c_short" then "short"
  else if ty == "c_ushort" then "short"
  else if ty == "c_int" then "int"
  else if ty == "c_uint" then "int"
  else if ty == "c_long" then "long"
  else if ty == "c_ulong" then "long"
  else ty

/-- `osraw_ty_to_java` (java/mod.rs 464-481). -/
def osraw_ty_to_java (ty : String) : String :=
  if ty == "c_void" then "void"
  else if ty == "c_char" then "byte"
  else if ty == "c_double" then "double"
  else if ty == "c_float" then "float"
  else if ty == "c_int" then "int"
  else if ty == "c_long" then "long"
  else if ty == "c_schar" then "byte"
  else if ty == "c_short" then "short"
  else if ty == "c_uchar" then "byte"
  else if ty == "c_uint" then "int"
  else if ty == "c_ulong" then "long"
  else if ty == "c_ushort" then "short"
  else ty

/-- `rust_ty_to_java` (java/mod.rs 487-506). -/
def rust_ty_to_java (ty : String) : String :=
  if ty == "()" then "void"
  else if ty == "f32" then "float"
  else if ty == "f64" then "double"
  else if ty == "i8" then "byte"
  else if ty == "i16" then "short"
  else if ty == "i32" then "int"
  else if ty == "i64" then "long"
  else if ty == "isize" then "intptr_t"
  else if ty == "u8" then "byte"
  else if ty == "u16" then "short"
  else if ty == "u32" then "int"
  else if ty == "u64" then "long"
  else if ty == "usize" then "long"
  else libc_ty_to_java ty

/-- `path_to_java` (java/mod.rs 402-437): single-segment paths go through
the primitive table; module paths are only allowed for `libc` and
`std::os::raw`. -/
def path_to_java (segs : List String) : Except JErr (Option String) :=
  match segs with
  | [] => .error ⟨.bug, "what the fuck have you done to this type?!"⟩
  | [single] => .ok (some (rust_ty_to_java single))
  | _ =>
    match segs.getLast? with
    | none => .error ⟨.bug, "what the fuck have you done to this type?!"⟩
    | some ty =>
      let module := joinSep "::" (segs.dropLast)
      if module == "libc" then .ok (some (libc_ty_to_java ty))
      else if module == "std::os::raw" then .ok (some (osraw_ty_to_java ty))
      else .error ⟨.error,
        "cheddar can not handle types in other modules (except `libc` and `std::os::raw`)"⟩

/-- `anon_rust_to_java` (java/mod.rs 360-396): bare function pointers are an
error here; pointers detect strings and otherwise recurse; paths go through
`path_to_java`; only the unit type survives the catch-all. -/
def anon_rust_to_java : RustTy → Except JErr (Option String)
  | .BareFn _ => .error ⟨.error,
      "C function pointers must have a name or function declaration associated with them"⟩
  | .Ptr m ty =>
    if tyToString ty == "c_char" then .ok (some "String")
    else anon_rust_to_java ty
  | .Path segs => path_to_java segs
  | ty =>
    if tyToString ty == "()" then .ok (some "void")
    else .error ⟨.error, "cheddar can not handle the type `" ++ tyToString ty ++ "`"⟩

/-- The `while let Some(arg) = inputs.next()` loop of `callback_name`
(java/mod.rs 146-170), with the accumulated base name made explicit:
`user_data`/`result` args are skipped, each other argument appends its
class-cased Java type, and an array pair consumes its length argument and
appends `Array`. -/
def callback_name_loop : List RustArg → String → Except JErr String
  | [], acc => .ok acc
  | a :: rest, acc =>
    if is_user_data_arg a || is_result_arg a then callback_name_loop rest acc
    else
      match anon_rust_to_java a.ty with
      | .error e => .error e
      | .ok o =>
        let arg_type := (o.map toClassCase).getD ""
        if is_array_arg a rest.head? then
          match rest with
          | _ :: rest2 => callback_name_loop rest2 (acc ++ (arg_type ++ "Array"))
          | [] => callback_name_loop [] (acc ++ (arg_type ++ "Array"))
        else callback_name_loop rest (acc ++ arg_type)

/-- `callback_name` (java/mod.rs 146-170): derive the Java interface name of
a callback from its (non-context) parameter types. -/
def callback_name (inputs : RustArgs) : Except JErr String :=
  callback_name_loop inputs.toList "Callback"

/-- `callback_arg_to_java` (java/mod.rs 327-346): a C-ABI function-pointer
argument is named by `callback_name`; a non-C ABI yields no type; lifetimes
are unsupported. -/
def callback_arg_to_java (fn_ty : BareFnTy) : Except JErr (Option String) :=
  if is_extern_abi fn_ty.abi then
    if fn_ty.lifetimes ≠ 0 then .error ⟨.error, "can not handle lifetimes"⟩
    else
      match callback_name fn_ty.decl.inputs with
      | .error e => .error e
      | .ok name => .ok (some name)
  else .ok none

/-- `rust_to_java` (java/mod.rs 349-357): function pointers go through
`callback_arg_to_java`, everything else through `anon_rust_to_java`. -/
def rust_to_java : RustTy → Except JErr (Option String)
  | .BareFn bare_fn => callback_arg_to_java bare_fn
  | ty => anon_rust_to_java ty

/-- The argument loop of `callback_to_java` (java/mod.rs 304-321): skip
`user_data` args, render each remaining argument as `Type name`, absorbing
array pairs. -/
def callback_to_java_loop : List RustArg → Except JErr (List String)
  | [] => .ok []
  | a :: rest =>
      match rust_to_java a.ty with
      | .error e => .error e
      | .ok o =>
        let java_type := o.getD ""
        if is_array_arg a rest.head? then
          match rest with
          | _ :: rest2 =>
            match callback_to_java_loop rest2 with
            | .error e => .error e
            | .ok l => .ok ((java_type ++ "[]" ++ " " ++ toCamelCase a.pat) :: l)
          | [] =>
            match callback_to_java_loop [] with
            | .error e => .error e
            | .ok l => .ok ((java_type ++ "[]" ++ " " ++ toCamelCase a.pat) :: l)
        else
          match callback_to_java_loop rest with
          | .error e => .error e
          | .ok l => .ok ((java_type ++ " " ++ toCamelCase a.pat) :: l)

/-- `callback_to_java` (java/mod.rs 283-324): a non-C ABI yields no
signature; lifetimes are unsupported; otherwise join the rendered args. -/
def callback_to_java (fn_ty : BareFnTy) : Except JErr (Option String) :=
  if is_extern_abi fn_ty.abi then
    if fn_ty.lifetimes ≠ 0 then .error ⟨.error, "cheddar can not handle lifetimes"⟩
    else
      match callback_to_java_loop
          (fn_ty.decl.inputs.toList.filter (fun a => !is_user_data_arg a)) with
      | .error e => .error e
      | .ok args => .ok (some (joinSep ", " args))
  else .ok none

/-- `transform_callback` (java/mod.rs 263-280): render a bare-function type
as a Java callback interface (the `try_some!` macro of the driver crate
propagates errors and forwards an absent signature as `Ok(None)`). -/
def transform_callback (ty : RustTy) (class_name : String) :
    Except JErr (Option String) :=
  match ty with
  | .BareFn bare_fn =>
    match callback_to_java bare_fn with
    | .error e => .error e
    | .ok none => .ok none
    | .ok (some types) =>
      .ok (some ("public interface " ++ class_name ++ " \x7b\n    public call("
        ++ types ++ ");\n\x7d\n"))
  | _ => .error ⟨.error, "Invalid callback type"⟩

/-- The callback-class generation block inside the argument loop of
`transform_native_fn` (java/mod.rs 203-216): for a bare-function argument,
derive the interface name and, when its file is not present yet in the
outputs, render and insert it.  The insertion is the last step, so an error
leaves the outputs untouched. -/
def insertCallbackIfNeeded (arg : RustArg) (outputs : Outputs) :
    Except JErr Outputs :=
  match arg.ty with
  | .BareFn bare_fn =>
    match callback_name bare_fn.decl.inputs with
    | .error e => .error e
    | .ok cb_class =>
      let cb_file := cb_class ++ ".java"
      match olookup outputs cb_file with
      | some _ => .ok outputs
      | none =>
        match transform_callback (.BareFn bare_fn) cb_class with
        | .error e => .error e
        | .ok cb_output => .ok (oinsert outputs cb_file (cb_output.getD ""))
  | _ => .ok outputs

/-- The `while let Some(arg) = fn_args.next()` loop of `transform_native_fn`
(java/mod.rs 187-217), over the already-filtered argument list: render each
argument, absorb array pairs (appending `[]` and skipping the length
argument), and insert callback-interface files as they are encountered.
The outputs component is returned even on error, because the Rust loop
mutates `outputs` in place before a later error can abort it. -/
def processArgs : List RustArg → Outputs → Except JErr (List String) × Outputs
  | [], outputs => (.ok [], outputs)
  | a :: rest, outputs =>
    match rust_to_java a.ty with
    | .error e => (.error e, outputs)
    | .ok o =>
      let java_type := o.getD ""
      if is_array_arg a rest.head? then
        match rest with
        | b :: rest2 =>
          match insertCallbackIfNeeded a outputs with
          | .error e => (.error e, outputs)
          | .ok outputs2 =>
            match processArgs rest2 outputs2 with
            | (.error e, outputs3) => (.error e, outputs3)
            | (.ok l, outputs3) =>
              (.ok (((java_type ++ "[]") ++ " " ++ toCamelCase a.pat) :: l), outputs3)
        | [] =>
          match insertCallbackIfNeeded a outputs with
          | .error e => (.error e, outputs)
          | .ok outputs2 =>
            match processArgs [] outputs2 with
            | (.error e, outputs3) => (.error e, outputs3)
            | (.ok l, outputs3) =>
              (.ok (((java_type ++ "[]") ++ " " ++ toCamelCase a.pat) :: l), outputs3)
      else
        match insertCallbackIfNeeded a outputs with
        | .error e => (.error e, outputs)
        | .ok outputs2 =>
          match processArgs rest outputs2 with
          | (.error e, outputs3) => (.error e, outputs3)
          | (.ok l, outputs3) =>
            (.ok ((java_type ++ " " ++ toCamelCase a.pat) :: l), outputs3)

/-- The return-type match of `transform_native_fn` (java/mod.rs 219-230):
the never type is a hard error; a default return renders as
`public static native void`. -/
def returnTypeOf : RetTy → Except JErr String
  | .ty RustTy.Never => .error ⟨.error, "panics across a C boundary are naughty!"⟩
  | .default => .ok "public static native void"
  | .ty ty =>
    match rust_to_java ty with
    | .error e => .error e
    | .ok o => .ok (o.getD "")

/-- `transform_native_fn` (java/mod.rs 172-260): filter out `user_data`
args, process the remainder (inserting callback-interface files), check the
return type, then append the rendered declaration to the
`NativeBindings.java` entry.  Mutations performed before an error survives
it, exactly as with the `&mut Outputs` parameter of the source. -/
def transform_native_fn (fn_decl : FnDecl) (docs : String) (name : String)
    (outputs : Outputs) : Option JErr × Outputs :=
  match processArgs (fn_decl.inputs.toList.filter (fun a => !is_user_data_arg a))
      outputs with
  | (.error e, outputs2) => (some e, outputs2)
  | (.ok args_str, outputs2) =>
    match returnTypeOf fn_decl.output with
    | .error e => (some e, outputs2)
    | .ok return_type =>
      let java_name := toCamelCase name
      let func_decl := return_type ++ " " ++ java_name ++ "("
        ++ joinSep ", " args_str ++ ")"
      let buffer := "/**\n" ++ String.mk (docReplace docs.data) ++ " */\n"
        ++ func_decl ++ ";\n\n"
      (none, oappendEntry outputs2 "NativeBindings.java" buffer)

/-- The `ast::ItemKind` shapes `LangJava::parse_fn` distinguishes. -/
inductive ItemKind where
  | fn (decl : FnDecl) (abi : Abi) (generics : Bool)
  | otherItem
  deriving DecidableEq

/-- `ast::Item`: identifier, attributes and kind. -/
structure Item where
  ident : String
  attrs : List Attribute
  node : ItemKind
  deriving DecidableEq

/-- `LangJava::parse_fn` (java/mod.rs 22-58): skip functions without
`#[no_mangle]` or without a C-compatible ABI (not an error); reject
parameterized functions; otherwise run `transform_native_fn`. -/
def LangJava.parse_fn (item : Item) (outputs : Outputs) : Option JErr × Outputs :=
  let nmdocs := parse_attr item.attrs check_no_mangle (fun a => retrieve_docstring a "")
  if !nmdocs.1 then (none, outputs)
  else
    match item.node with
    | .fn fn_decl abi generics =>
      if !is_extern_abi abi then (none, outputs)
      else if generics then
        (some ⟨.error, "cheddar can not handle parameterized extern functions"⟩, outputs)
      else transform_native_fn fn_decl nmdocs.2 item.ident outputs
    | .otherItem => (some ⟨.bug, "`parse_fn` called on wrong `Item_`"⟩, outputs)

/-- `LangJava::finalise_output` (java/mod.rs 130-142): wrap the
`NativeBindings.java` artifact in its container class, or fail hard when it
was never produced. -/
def LangJava.finalise_output (outputs : Outputs) : Option JErr × Outputs :=
  match olookup outputs "NativeBindings.java" with
  | some funcs =>
    (none, oinsert outputs "NativeBindings.java"
      ("public class NativeBindings \x7b\n" ++ funcs ++ "\n\x7d"))
  | none => (some ⟨.error, "no native bindings generated?"⟩, outputs)

/- ## JNI struct-field classification (src/java/jni.rs, lines 561-637) -/

/-- `ast::StructField`: identifier and type (attributes are irrelevant to
the classification). -/
structure JStructField where
  name : String
  ty : RustTy
  deriving DecidableEq

/-- `StructField` from jni.rs (lines 535-543): the classification of a
struct field for JNI conversion. -/
inductive StructField where
  | Primitive (field : JStructField)
  | Array (field : JStructField) (len_field : String) (cap_field : Option String)
  | StructPtr (field : JStructField) (mutbl : Bool) (ty : RustTy)
  | String (field : JStructField)
  | LenField (field : JStructField)
  deriving DecidableEq

/-- The `field_name.chars().take(field_name.len() - 4)` strip of a `_ptr`
suffix (jni.rs 574-576; byte length and character count agree on the
identifiers at hand). -/
def stripPtrSuffix (name : String) : String :=
  if strEndsWith name "_ptr" then ⟨name.data.take (name.data.length - 4)⟩ else name

/-- `is_array_meta_field` (jni.rs 624-637): a `usize` field named `*_len`
or `*_cap`. -/
def is_array_meta_field (field : JStructField) : Bool :=
  match field.ty with
  | .Path segs =>
    match segs.getLast? with
    | some ty =>
      ty == "usize" && (strEndsWith field.name "_len" || strEndsWith field.name "_cap")
    | none => false
  | _ => false

/-- The per-field body of the `for f in fields` loop of
`transform_struct_fields` (jni.rs 561-621): a pointer field becomes an
`Array` when a `<base>_len` field exists ANYWHERE in the field set (base =
name minus an optional `_ptr` suffix), else a `String` for `c_char`
pointees, else a `StructPtr`; a path field becomes a `LenField` when it is
array metadata, else a `Primitive`. -/
def classifyStructField (field_names : List String) (f : JStructField) :
    StructField :=
  match f.ty with
  | .Ptr m pointee =>
    let field_name := stripPtrSuffix f.name
    let len_field := field_name ++ "_len"
    let cap_field := field_name ++ "_cap"
    if field_names.contains len_field then
      .Array f len_field
        (if field_names.contains cap_field then some cap_field else none)
    else if tyToString pointee == "c_char" then .String f
    else .StructPtr f m pointee
  | .Path _ =>
    if is_array_meta_field f then .LenField f else .Primitive f
  | _ => .Primitive f

/-- `transform_struct_fields` (jni.rs 561-621): classify every field against
the full field-name set. -/
def transform_struct_fields (fields : List JStructField) : List StructField :=
  fields.map (classifyStructField (fields.map JStructField.name))

/-- Characterization of function-parameter array-pair detection: only the
shape of the pointer argument and the SIZE argument's own name and type
matter; no derivation from the pointer's name is required. -/
theorem is_array_arg_iff (a b : RustArg) :
    is_array_arg a (some b) = true ↔
      ((∃ m t, a.ty = RustTy.Ptr m t) ∧ is_result_arg a = false ∧
        tyToString b.ty = "usize" ∧
        (strEndsWith b.pat "_len" = true ∨ b.pat = "len" ∨ b.pat = "size")) := by
  unfold is_array_arg
  cases hty : a.ty with
  | Ptr m t =>
    simp only [Option.map_some', Option.getD_some, Bool.and_eq_true,
      Bool.not_eq_true']
    unfold is_ptr_len_arg
    simp only [Bool.and_eq_true, Bool.or_eq_true, beq_iff_eq, or_assoc]
    constructor
    · rintro ⟨h1, h2, h3⟩
      exact ⟨⟨m, t, rfl⟩, h1, h2, h3⟩
    · rintro ⟨-, h1, h2, h3⟩
      exact ⟨h1, h2, h3⟩
  | Array ty size =>
    simp only [Bool.false_eq_true, false_iff]
    rintro ⟨⟨m, t, hmt⟩, -, -, -⟩
    exact RustTy.noConfusion hmt
  | Path segs =>
    simp only [Bool.false_eq_true, false_iff]
    rintro ⟨⟨m, t, hmt⟩, -, -, -⟩
    exact RustTy.noConfusion hmt
  | BareFn f =>
    simp only [Bool.false_eq_true, false_iff]
    rintro ⟨⟨m, t, hmt⟩, -, -, -⟩
    exact RustTy.noConfusion hmt
  | Never =>
    simp only [Bool.false_eq_true, false_iff]
    rintro ⟨⟨m, t, hmt⟩, -, -, -⟩
    exact RustTy.noConfusion hmt
  | Other s =>
    simp only [Bool.false_eq_true, false_iff]
    rintro ⟨⟨m, t, hmt⟩, -, -, -⟩
    exact RustTy.noConfusion hmt

/-- When the pair is detected, the size argument is absorbed: the remaining
parameters come from the arguments after it. -/
theorem processArgs_merged (a b : RustArg) (post : List RustArg)
    (outputs : Outputs) (l : List String) (outputs3 : Outputs)
    (harr : is_array_arg a (some b) = true)
    (h : processArgs (a :: b :: post) outputs = (.ok l, outputs3)) :
    ∃ s tail outputs2, l = s :: tail ∧
      insertCallbackIfNeeded a outputs = .ok outputs2 ∧
      processArgs post outputs2 = (.ok tail, outputs3) := by
  unfold processArgs at h
  cases hr : rust_to_java a.ty with
  | error e => rw [hr] at h; simp at h
  | ok o =>
    rw [hr] at h
    simp only [List.head?_cons, harr, if_true] at h
    cases hi : insertCallbackIfNeeded a outputs with
    | error e => rw [hi] at h; simp at h
    | ok outputs2 =>
      simp only [hi] at h
      cases hp : processArgs post outputs2 with
      | mk r outs =>
        rw [hp] at h
        cases r with
        | error e => simp at h
        | ok tail =>
          simp only [Prod.mk.injEq, Except.ok.injEq] at h
          exact ⟨_, tail, outputs2, h.1.symm, rfl, by rw [hp, h.2]⟩

/-- When the pair is NOT detected, the second argument is processed on its
own: two independent values are produced. -/
theorem processArgs_unmerged (a b : RustArg) (post : List RustArg)
    (outputs : Outputs) (l : List String) (outputs3 : Outputs)
    (harr : is_array_arg a (some b) = false)
    (h : processArgs (a :: b :: post) outputs = (.ok l, outputs3)) :
    ∃ s tail outputs2, l = s :: tail ∧
      insertCallbackIfNeeded a outputs = .ok outputs2 ∧
      processArgs (b :: post) outputs2 = (.ok tail, outputs3) := by
  unfold processArgs at h
  cases hr : rust_to_java a.ty with
  | error e => rw [hr] at h; simp at h
  | ok o =>
    rw [hr] at h
    simp only [List.head?_cons, harr, Bool.false_eq_true, if_false] at h
    cases hi : insertCallbackIfNeeded a outputs with
    | error e => rw [hi] at h; simp at h
    | ok outputs2 =>
      simp only [hi] at h
      cases hp : processArgs (b :: post) outputs2 with
      | mk r outs =>
        rw [hp] at h
        cases r with
        | error e => simp at h
        | ok tail =>
          simp only [Prod.mk.injEq, Except.ok.injEq] at h
          exact ⟨_, tail, outputs2, h.1.symm, rfl, by rw [hp, h.2]⟩

/-- Struct-field pairing: a pointer field is merged into an `Array`
classification exactly when a `<base>_len` field exists anywhere in the
field-name set — adjacency is not required. -/
theorem classify_ptr_array_iff (field_names : List String) (f : JStructField)
    (m : Bool) (t : RustTy) (hty : f.ty = RustTy.Ptr m t) :
    ((∃ lf cf, classifyStructField field_names f = StructField.Array f lf cf) ↔
      field_names.contains (stripPtrSuffix f.name ++ "_len") = true) := by
  simp only [classifyStructField, hty]
  by_cases hlen : field_names.contains (stripPtrSuffix f.name ++ "_len") = true
  · rw [if_pos hlen]
    exact iff_of_true ⟨_, _, rfl⟩ hlen
  · simp only [Bool.not_eq_true] at hlen
    simp only [hlen, Bool.false_eq_true, if_false, iff_false, not_exists]
    intro lf cf
    split <;> intro hc <;> exact StructField.noConfusion hc

/-- Struct-field metadata: a path-typed field is classified as an absorbed
`LenField` exactly when it is a `usize` field named `*_len` or `*_cap`. -/
theorem classify_path_len_iff (field_names : List String) (f : JStructField)
    (segs : List String) (hty : f.ty = RustTy.Path segs) :
    (classifyStructField field_names f = StructField.LenField f ↔
      is_array_meta_field f = true) := by
  simp only [classifyStructField, hty]
  by_cases hm : is_array_meta_field f = true
  · simp [hm]
  · simp only [Bool.not_eq_true] at hm
    simp only [hm, Bool.false_eq_true, if_false, iff_false]
    exact fun hc => StructField.noConfusion hc

/-- C2 (amended): for FUNCTION PARAMETERS, array-pair merging requires only
that a pointer argument (other than the `result` argument) be immediately
followed by a `usize` argument named with an `_len` suffix or literally
`len`/`size` — the size argument's name is NOT required to derive from the
pointer's name; the detected pair is merged with the length argument
absorbed, and an undetected neighbour is emitted independently.  For STRUCT
FIELDS, a pointer field is merged exactly when a `<base>_len` field exists
anywhere in the field set (base = field name minus an optional `_ptr`
suffix), and a `usize` field named `*_len`/`*_cap` is classified as absorbed
length/capacity metadata.  `C2_array_pair_counterexample` refutes the
name-derivation requirement of the original claim. -/
theorem C2_array_pair_detection (a b : RustArg) (post : List RustArg)
    (outputs : Outputs) (l : List String) (outputs3 : Outputs)
    (fs : List String) (f : JStructField) :
    (is_array_arg a (some b) = true ↔
      ((∃ m t, a.ty = RustTy.Ptr m t) ∧ is_result_arg a = false ∧
        tyToString b.ty = "usize" ∧
        (strEndsWith b.pat "_len" = true ∨ b.pat = "len" ∨ b.pat = "size")))
    ∧ (is_array_arg a (some b) = true →
        processArgs (a :: b :: post) outputs = (.ok l, outputs3) →
        ∃ s tail outputs2, l = s :: tail ∧
          insertCallbackIfNeeded a outputs = .ok outputs2 ∧
          processArgs post outputs2 = (.ok tail, outputs3))
    ∧ (is_array_arg a (some b) = false →
        processArgs (a :: b :: post) outputs = (.ok l, outputs3) →
        ∃ s tail outputs2, l = s :: tail ∧
          insertCallbackIfNeeded a outputs = .ok outputs2 ∧
          processArgs (b :: post) outputs2 = (.ok tail, outputs3))
    ∧ (∀ m t, f.ty = RustTy.Ptr m t →
        ((∃ lf cf, classifyStructField fs f = StructField.Array f lf cf) ↔
          fs.contains (stripPtrSuffix f.name ++ "_len") = true))
    ∧ (∀ segs, f.ty = RustTy.Path segs →
        (classifyStructField fs f = StructField.LenField f ↔
          is_array_meta_field f = true)) :=
  ⟨is_array_arg_iff a b,
    fun harr h => processArgs_merged a b post outputs l outputs3 harr h,
    fun harr h => processArgs_unmerged a b post outputs l outputs3 harr h,
    fun m t hty => classify_ptr_array_iff fs f m t hty,
    fun segs hty => classify_path_len_iff fs f segs hty⟩

/-- C2 (counterexample): `[ptr: *const u8, foo_len: usize]` is merged into a
single array value although `foo_len` is not derived from the pointer's base
name — refuting the claim that a name mismatch yields two independent
values. -/
theorem C2_array_pair_counterexample :
    is_array_arg (RustArg.mk "ptr" (RustTy.Ptr false (RustTy.Path ["u8"])))
        (some (RustArg.mk "foo_len" (RustTy.Path ["usize"]))) = true ∧
    ¬("foo_len" = "ptr" ++ "_len" ∨ "foo_len" = "len" ∨ "foo_len" = "size") ∧
    (processArgs [RustArg.mk "ptr" (RustTy.Ptr false (RustTy.Path ["u8"])),
        RustArg.mk "foo_len" (RustTy.Path ["usize"])] []).1
      = .ok ["byte[] ptr"] := by
  refine ⟨by decide, by decide, rfl⟩

/-- Witness for C2 at the name-derived pair `[ptr, ptr_len]`: the pair is
merged and the length argument absorbed. -/
theorem C2_array_pair_detection_witness :
    ∃ s tail outputs2, (["byte[] ptr"] : List String) = s :: tail ∧
      insertCallbackIfNeeded
        (RustArg.mk "ptr" (RustTy.Ptr false (RustTy.Path ["u8"]))) [] = .ok outputs2 ∧
      processArgs [] outputs2 = (.ok tail, ([] : Outputs)) :=
  (C2_array_pair_detection
      (RustArg.mk "ptr" (RustTy.Ptr false (RustTy.Path ["u8"])))
      (RustArg.mk "ptr_len" (RustTy.Path ["usize"])) [] [] ["byte[] ptr"] []
      [] ⟨"f", RustTy.Never⟩).2.1 (by decide) rfl

/-- C5: a function-pointer parameter is recognized as a callback iff its own
first parameter is the `user_data: *mut c_void` context pair; a structurally
identical function pointer whose first inner parameter is named differently
is not recognized; and the Java emitter's native-function wrapper filters
every `user_data` parameter out of (and nothing else from) the argument list
it emits. -/
theorem C5_callback_detection (ty : CSType) (decl : FnDecl) (a : RustArg) :
    ((extract_callback ty).isSome = true ↔
      ∃ (f : CSFunction) (rest : CSInputs), ty = CSType.Function f ∧
        f.inputs = CSInputs.cons "user_data" (CSType.Pointer CSType.Unit) rest)
    ∧ extract_callback (CSType.Function (CSFunction.mk
        (CSInputs.cons "ctx" (CSType.Pointer CSType.Unit) CSInputs.nil)
        CSType.Unit)) = none
    ∧ (extract_callback (CSType.Function (CSFunction.mk
        (CSInputs.cons "user_data" (CSType.Pointer CSType.Unit) CSInputs.nil)
        CSType.Unit))).isSome = true
    ∧ (a ∈ decl.inputs.toList.filter (fun x => !is_user_data_arg x) →
        is_user_data_arg a = false)
    ∧ (a ∈ decl.inputs.toList → is_user_data_arg a = false →
        a ∈ decl.inputs.toList.filter (fun x => !is_user_data_arg x)) := by
  refine ⟨extract_callback_isSome_iff ty, by decide, by decide, ?_, ?_⟩
  · intro hmem
    have := (List.mem_filter.mp hmem).2
    simpa using this
  · intro hmem hno
    exact List.mem_filter.mpr ⟨hmem, by simp [hno]⟩

/-- Witness for C5: a non-context parameter survives the Java emitter's
filter of the function `fn f(user_data: *mut c_void, x: i32)`. -/
theorem C5_callback_detection_witness :
    is_user_data_arg (RustArg.mk "x" (RustTy.Path ["i32"])) = false :=
  (C5_callback_detection CSType.Unit
      (FnDecl.mk
        (RustArgs.cons (RustArg.mk "user_data" (RustTy.Ptr true (RustTy.Path ["c_void"])))
          (RustArgs.cons (RustArg.mk "x" (RustTy.Path ["i32"])) RustArgs.nil))
        RetTy.default)
      (RustArg.mk "x" (RustTy.Path ["i32"]))).2.2.2.1 (by decide)

/-- C8: when collection produced no `NativeBindings.java` artifact, the Java
finalization step fails hard (leaving the outputs untouched); when the
artifact exists, finalization succeeds and wraps it in the container class;
and a function without the `#[no_mangle]` marker or without a C-compatible
ABI is silently skipped at collection time — never an error there. -/
theorem C8_finalise_missing_bindings (outputs : Outputs) (c : String)
    (item : Item) (decl : FnDecl) (abi : Abi) (generics : Bool) :
    (olookup outputs "NativeBindings.java" = none →
      LangJava.finalise_output outputs
        = (some ⟨.error, "no native bindings generated?"⟩, outputs))
    ∧ (olookup outputs "NativeBindings.java" = some c →
      LangJava.finalise_output outputs
        = (none, oinsert outputs "NativeBindings.java"
            ("public class NativeBindings \x7b\n" ++ c ++ "\n\x7d")))
    ∧ ((parse_attr item.attrs check_no_mangle (fun a => retrieve_docstring a "")).1
        = false →
      LangJava.parse_fn item outputs = (none, outputs))
    ∧ (item.node = ItemKind.fn decl abi generics → is_extern_abi abi = false →
      LangJava.parse_fn item outputs = (none, outputs)) := by
  refine ⟨?_, ?_, ?_, ?_⟩
  · intro h
    simp [LangJava.finalise_output, h]
  · intro h
    simp [LangJava.finalise_output, h]
  · intro hnm
    simp [LangJava.parse_fn, hnm]
  · intro hnode habi
    by_cases hnm :
      (parse_attr item.attrs check_no_mangle (fun a => retrieve_docstring a "")).1 = true
    · simp [LangJava.parse_fn, hnm, hnode, habi]
    · simp only [Bool.not_eq_true] at hnm
      simp [LangJava.parse_fn, hnm]

/-- Witness for C8: finalizing empty outputs fails; finalizing outputs that
hold the artifact wraps it; a `#[no_mangle]`-less function item is skipped
without touching the outputs. -/
theorem C8_finalise_missing_bindings_witness :
    LangJava.finalise_output []
        = (some ⟨.error, "no native bindings generated?"⟩, ([] : Outputs))
    ∧ LangJava.finalise_output [("NativeBindings.java", "void f();")]
        = (none, [("NativeBindings.java",
            "public class NativeBindings \x7b\nvoid f();\n\x7d")])
    ∧ LangJava.parse_fn
        ⟨"f", [], ItemKind.fn (FnDecl.mk RustArgs.nil RetTy.default) Abi.C false⟩ []
        = (none, ([] : Outputs)) := by
  refine ⟨?_, ?_, ?_⟩
  · exact (C8_finalise_missing_bindings [] "" ⟨"", [], ItemKind.otherItem⟩
      (FnDecl.mk RustArgs.nil RetTy.default) Abi.C false).1 rfl
  · have := (C8_finalise_missing_bindings [("NativeBindings.java", "void f();")]
      "void f();" ⟨"", [], ItemKind.otherItem⟩
      (FnDecl.mk RustArgs.nil RetTy.default) Abi.C false).2.1 (by rfl)
    simpa [oinsert] using this
  · exact (C8_finalise_missing_bindings []
      "" ⟨"f", [], ItemKind.fn (FnDecl.mk RustArgs.nil RetTy.default) Abi.C false⟩
      (FnDecl.mk RustArgs.nil RetTy.default) Abi.C false).2.2.1 rfl

/-- The accumulated callback base name is only ever extended. -/
theorem callback_name_loop_prefix : ∀ (args : List RustArg) (acc s : String),
    callback_name_loop args acc = .ok s → ∃ t, s = acc ++ t
  | [], acc, s, h => by
    simp only [callback_name_loop, Except.ok.injEq] at h
    exact ⟨"", by rw [← h, String.append_empty]⟩
  | a :: rest, acc, s, h => by
    unfold callback_name_loop at h
    by_cases hskip : (is_user_data_arg a || is_result_arg a) = true
    · rw [if_pos hskip] at h
      exact callback_name_loop_prefix rest acc s h
    · rw [if_neg hskip] at h
      cases hr : anon_rust_to_java a.ty with
      | error e => rw [hr] at h; simp at h
      | ok o =>
        rw [hr] at h
        simp only at h
        by_cases harr : is_array_arg a rest.head? = true
        · rw [if_pos harr] at h
          cases rest with
          | nil =>
            obtain ⟨t, ht⟩ := callback_name_loop_prefix [] _ s h
            exact ⟨_, by rw [ht, String.append_assoc]⟩
          | cons b rest2 =>
            obtain ⟨t, ht⟩ := callback_name_loop_prefix rest2 _ s h
            exact ⟨_, by rw [ht, String.append_assoc]⟩
        · rw [if_neg harr] at h
          obtain ⟨t, ht⟩ := callback_name_loop_prefix rest _ s h
          exact ⟨_, by rw [ht, String.append_assoc]⟩

/-- The generated callback file name is never the native-bindings
artifact. -/
theorem callback_file_ne_bindings (inputs : RustArgs) (s : String)
    (h : callback_name inputs = .ok s) :
    (s ++ ".java") ≠ "NativeBindings.java" := by
  obtain ⟨t, ht⟩ := callback_name_loop_prefix inputs.toList "Callback" s h
  subst ht
  rw [String.append_assoc]
  intro heq
  have hd := congrArg String.data heq
  simp [String.data_append] at hd

/-- Inserting under a different key preserves a lookup. -/
theorem olookup_oinsert_ne : ∀ (outputs : Outputs) (k key v : String),
    k ≠ key → olookup (oinsert outputs k v) key = olookup outputs key
  | [], k, key, v, hne => by simp [oinsert, olookup, hne]
  | (k2, v2) :: rest, k, key, v, hne => by
    unfold oinsert
    by_cases he : k2 == k
    · rw [if_pos he]
      simp only [olookup]
      have : (k == key) = false := by simp [hne]
      have h2 : (k2 == key) = false := by
        have : k2 = k := by simpa using he
        simp [this, hne]
      simp [this, h2]
    · rw [if_neg he]
      simp only [olookup]
      by_cases h2 : k2 == key
      · simp [h2]
      · simp only [h2, Bool.false_eq_true, if_false]
        exact olookup_oinsert_ne rest k key v hne

/-- The in-loop callback generation never touches the `NativeBindings.java`
entry. -/
theorem insertCallback_preserves_bindings (a : RustArg) (outputs outputs2 : Outputs)
    (h : insertCallbackIfNeeded a outputs = .ok outputs2) :
    olookup outputs2 "NativeBindings.java" = olookup outputs "NativeBindings.java" := by
  unfold insertCallbackIfNeeded at h
  cases hty : a.ty with
  | BareFn bare_fn =>
    simp only [hty] at h
    cases hn : callback_name bare_fn.decl.inputs with
    | error e =>
      simp only [hn] at h
      exact Except.noConfusion h
    | ok cb_class =>
      simp only [hn] at h
      cases hl : olookup outputs (cb_class ++ ".java") with
      | some v =>
        simp only [hl, Except.ok.injEq] at h
        rw [← h]
      | none =>
        simp only [hl] at h
        cases htc : transform_callback (.BareFn bare_fn) cb_class with
        | error e =>
          simp only [htc] at h
          exact Except.noConfusion h
        | ok cb_output =>
          simp only [htc, Except.ok.injEq] at h
          rw [← h]
          exact olookup_oinsert_ne outputs (cb_class ++ ".java")
            "NativeBindings.java" _ (callback_file_ne_bindings _ _ hn)
  | Array ty size => simp only [hty, Except.ok.injEq] at h; rw [← h]
  | Path segs => simp only [hty, Except.ok.injEq] at h; rw [← h]
  | Ptr m ty => simp only [hty, Except.ok.injEq] at h; rw [← h]
  | Never => simp only [hty, Except.ok.injEq] at h; rw [← h]
  | Other s => simp only [hty, Except.ok.injEq] at h; rw [← h]

/-- The whole argument loop never touches the `NativeBindings.java` entry,
whether it succeeds or fails. -/
theorem processArgs_preserves_bindings : ∀ (args : List RustArg) (outputs : Outputs),
    olookup (processArgs args outputs).2 "NativeBindings.java"
      = olookup outputs "NativeBindings.java"
  | [], outputs => rfl
  | a :: rest, outputs => by
    unfold processArgs
    cases hr : rust_to_java a.ty with
    | error e => rfl
    | ok o =>
      simp only
      by_cases harr : is_array_arg a rest.head? = true
      · rw [if_pos harr]
        cases rest with
        | nil =>
          cases hi : insertCallbackIfNeeded a outputs with
          | error e => rfl
          | ok outputs2 =>
            dsimp only
            have h1 := insertCallback_preserves_bindings a outputs outputs2 hi
            have h2 := processArgs_preserves_bindings [] outputs2
            cases hp : processArgs [] outputs2 with
            | mk r outs =>
              rw [hp] at h2
              dsimp only at h2
              cases r <;> dsimp only <;> rw [h2, h1]
        | cons b rest2 =>
          cases hi : insertCallbackIfNeeded a outputs with
          | error e => rfl
          | ok outputs2 =>
            dsimp only
            have h1 := insertCallback_preserves_bindings a outputs outputs2 hi
            have h2 := processArgs_preserves_bindings rest2 outputs2
            cases hp : processArgs rest2 outputs2 with
            | mk r outs =>
              rw [hp] at h2
              dsimp only at h2
              cases r <;> dsimp only <;> rw [h2, h1]
      · rw [if_neg harr]
        cases hi : insertCallbackIfNeeded a outputs with
        | error e => rfl
        | ok outputs2 =>
          dsimp only
          have h1 := insertCallback_preserves_bindings a outputs outputs2 hi
          have h2 := processArgs_preserves_bindings rest outputs2
          cases hp : processArgs rest outputs2 with
          | mk r outs =>
            rw [hp] at h2
            dsimp only at h2
            cases r <;> dsimp only <;> rw [h2, h1]

/-- C9 (amended): a function-parsing invocation that ends in a hard error
never adds or changes the `NativeBindings.java` bindings text (that entry is
only appended after every check has passed) — but it is NOT all-or-nothing:
callback-interface files generated for parameters processed before the error
remain in the outputs, as `C9_partial_output_counterexample` shows. -/
theorem C9_error_keeps_bindings_entry (fn_decl : FnDecl) (docs name : String)
    (outputs : Outputs)
    (herr : (transform_native_fn fn_decl docs name outputs).1.isSome = true) :
    olookup (transform_native_fn fn_decl docs name outputs).2 "NativeBindings.java"
      = olookup outputs "NativeBindings.java" := by
  unfold transform_native_fn at herr ⊢
  have hpres := processArgs_preserves_bindings
    (fn_decl.inputs.toList.filter (fun a => !is_user_data_arg a)) outputs
  cases hp : processArgs (fn_decl.inputs.toList.filter (fun a => !is_user_data_arg a))
      outputs with
  | mk r outs =>
    rw [hp] at hpres herr
    try dsimp only at hpres
    cases r with
    | error e =>
      dsimp only
      exact hpres
    | ok args =>
      dsimp only at herr ⊢
      cases hrt : returnTypeOf fn_decl.output with
      | error e =>
        dsimp only
        exact hpres
      | ok rt =>
        rw [hrt] at herr
        dsimp only at herr
        simp at herr

/-- C9 (counterexample): parsing
`fn f(cb: extern "C" fn(user_data: *mut c_void)) -> !` fails hard (never
type) AFTER the callback-interface file has been inserted, so the failing
invocation does not leave the outputs unchanged. -/
theorem C9_partial_output_counterexample :
    (transform_native_fn
        (FnDecl.mk
          (RustArgs.cons (RustArg.mk "cb" (RustTy.BareFn (BareFnTy.mk Abi.C 0
            (FnDecl.mk
              (RustArgs.cons
                (RustArg.mk "user_data" (RustTy.Ptr true (RustTy.Path ["c_void"])))
                RustArgs.nil)
              RetTy.default))))
            RustArgs.nil)
          (RetTy.ty RustTy.Never)) "" "f" []).1.isSome = true
    ∧ (transform_native_fn
        (FnDecl.mk
          (RustArgs.cons (RustArg.mk "cb" (RustTy.BareFn (BareFnTy.mk Abi.C 0
            (FnDecl.mk
              (RustArgs.cons
                (RustArg.mk "user_data" (RustTy.Ptr true (RustTy.Path ["c_void"])))
                RustArgs.nil)
              RetTy.default))))
            RustArgs.nil)
          (RetTy.ty RustTy.Never)) "" "f" []).2 ≠ [] :=
  ⟨rfl, by decide⟩

/-- Witness for C9 (amended) at the same failing declaration: the
`NativeBindings.java` entry is unchanged by the failing invocation. -/
theorem C9_error_keeps_bindings_entry_witness :
    olookup (transform_native_fn
        (FnDecl.mk
          (RustArgs.cons (RustArg.mk "cb" (RustTy.BareFn (BareFnTy.mk Abi.C 0
            (FnDecl.mk
              (RustArgs.cons
                (RustArg.mk "user_data" (RustTy.Ptr true (RustTy.Path ["c_void"])))
                RustArgs.nil)
              RetTy.default))))
            RustArgs.nil)
          (RetTy.ty RustTy.Never)) "" "f" []).2 "NativeBindings.java"
      = olookup ([] : Outputs) "NativeBindings.java" :=
  C9_error_keeps_bindings_entry _ "" "f" [] rfl
